import Mathlib

/-!
# nuimotion: user / skeleton state tracking, the event bridge and joint queries

A shallow embedding of `src/Main.cpp`.  Global variables of the C++ program become the
fields of `World`; every function that mutates them becomes a function `World → … → World`
(inside `Except Fault` where the C++ code can index an array out of bounds or dereference
a null pointer).  `uv_async_send` and `node::MakeCallback` are recorded in two log fields.
-/

namespace NuiMotion

/-! ## Constants and SDK enumerations -/

/-- `#define MAX_USERS 1` (Main.cpp:25). -/
abbrev MAX_USERS : Nat := 1

namespace nite

/-- The NiTE SDK enumeration `nite::SkeletonState`, the value of
`user.getSkeleton().getState()`. -/
inductive SkeletonState
  | SKELETON_NONE
  | SKELETON_CALIBRATING
  | SKELETON_TRACKED
  | SKELETON_CALIBRATION_ERROR_NOT_IN_POSE
  | SKELETON_CALIBRATION_ERROR_HANDS
  | SKELETON_CALIBRATION_ERROR_HEAD
  | SKELETON_CALIBRATION_ERROR_LEGS
  | SKELETON_CALIBRATION_ERROR_TORSO
  deriving DecidableEq, Repr

/-- The NiTE SDK enumeration `nite::JointType`. -/
inductive JointType
  | JOINT_HEAD
  | JOINT_NECK
  | JOINT_LEFT_SHOULDER
  | JOINT_RIGHT_SHOULDER
  | JOINT_LEFT_ELBOW
  | JOINT_RIGHT_ELBOW
  | JOINT_LEFT_HAND
  | JOINT_RIGHT_HAND
  | JOINT_TORSO
  | JOINT_LEFT_HIP
  | JOINT_RIGHT_HIP
  | JOINT_LEFT_KNEE
  | JOINT_RIGHT_KNEE
  | JOINT_LEFT_FOOT
  | JOINT_RIGHT_FOOT
  deriving DecidableEq, Repr

end nite

/-- The integer constants of `enums/EventTypes.h` and `enums/GestureTypes.h`.  The two
headers are not part of the sources at hand, so the values are parameters of the model.
`DEVICE_INITIALIZED` and `DEVICE_ERROR` are the labels of the `switch` in `onDeviceEvent`,
the thirteen constants from `NEW_USER` to `WAVE` those of the `switch` in
`onTrackingEvent`. -/
structure EventCodes where
  DEVICE_INITIALIZED : Int
  DEVICE_ERROR : Int
  NEW_USER : Int
  USER_IS_VISIBLE : Int
  USER_IS_OUT_OF_SCENE : Int
  USER_IS_LOST : Int
  SKELETON_STOPPED_TRACKING : Int
  SKELETON_TRACKING : Int
  SKELETON_CALIBRATING : Int
  SKELETON_CALIBRATION_FAILED : Int
  SWIPE_LEFT : Int
  SWIPE_RIGHT : Int
  SWIPE_UP : Int
  SWIPE_DOWN : Int
  WAVE : Int
  NO_GESTURE : Int
  deriving DecidableEq, Repr

namespace EventCodes

/-- The `case` labels of `onTrackingEvent`, in source order. -/
def caseLabels (c : EventCodes) : List Int :=
  [c.NEW_USER, c.USER_IS_VISIBLE, c.USER_IS_OUT_OF_SCENE, c.USER_IS_LOST,
   c.SKELETON_STOPPED_TRACKING, c.SKELETON_TRACKING, c.SKELETON_CALIBRATING,
   c.SKELETON_CALIBRATION_FAILED, c.SWIPE_LEFT, c.SWIPE_RIGHT, c.SWIPE_UP, c.SWIPE_DOWN,
   c.WAVE]

/-- The eight state symbols stored in `currentUserState` / `currentSkeletonState`. -/
def stateSymbols (c : EventCodes) : List Int :=
  [c.NEW_USER, c.USER_IS_VISIBLE, c.USER_IS_OUT_OF_SCENE, c.USER_IS_LOST,
   c.SKELETON_STOPPED_TRACKING, c.SKELETON_TRACKING, c.SKELETON_CALIBRATING,
   c.SKELETON_CALIBRATION_FAILED]

/-- What the source relies on: the `case` labels of one `switch` are pairwise different
(C++ rejects a duplicate label), and `0` is no state symbol (the guards
`currentUserState != 0` and `currentSkeletonState != 0` read `0` as "nothing yet"). -/
def Valid (c : EventCodes) : Prop :=
  c.caseLabels.Nodup ∧ (0 : Int) ∉ c.stateSymbols

instance (c : EventCodes) : Decidable c.Valid := by
  unfold Valid; exact inferInstance

end EventCodes

/-- One assignment of the constants, used where a concrete run is evaluated. -/
def sampleCodes : EventCodes where
  DEVICE_INITIALIZED := 100
  DEVICE_ERROR := 101
  NEW_USER := 200
  USER_IS_VISIBLE := 201
  USER_IS_OUT_OF_SCENE := 202
  USER_IS_LOST := 203
  SKELETON_STOPPED_TRACKING := 300
  SKELETON_TRACKING := 301
  SKELETON_CALIBRATING := 302
  SKELETON_CALIBRATION_FAILED := 303
  SWIPE_LEFT := 401
  SWIPE_RIGHT := 402
  SWIPE_UP := 403
  SWIPE_DOWN := 404
  WAVE := 405
  NO_GESTURE := 400

/-! ## Joints and the skeleton snapshot -/

/-- The struct `Joint` of `enums/Joint.h` as `Main.cpp` uses it: `type`, the integer
position written by `mapJointFromSkeleton`, three rotation angles and `isActive`.
Rotation angles are floats that the modelled code only copies; they are carried as
rationals. -/
structure Joint where
  type : nite.JointType
  xPos : Int
  yPos : Int
  zPos : Int
  xRotation : ℚ
  yRotation : ℚ
  zRotation : ℚ
  isActive : Bool
  deriving DecidableEq, Repr

/-- The value-initialised `Joint()` of Main.cpp:377 (all members zero; the enumerator
with value zero is `JOINT_HEAD`). -/
def Joint.zero : Joint :=
  { type := nite.JointType.JOINT_HEAD, xPos := 0, yPos := 0, zPos := 0,
    xRotation := 0, yRotation := 0, zRotation := 0, isActive := false }

/-- The struct `Skeleton` of `enums/Skeleton.h`: the ten named joints. -/
structure Skeleton where
  leftHand : Joint
  leftElbow : Joint
  leftShoulder : Joint
  rightHand : Joint
  rightElbow : Joint
  rightShoulder : Joint
  torso : Joint
  head : Joint
  leftHip : Joint
  rightHip : Joint
  deriving DecidableEq, Repr

/-- The zero-initialised global `skeleton`. -/
def Skeleton.zero : Skeleton :=
  { leftHand := Joint.zero, leftElbow := Joint.zero, leftShoulder := Joint.zero,
    rightHand := Joint.zero, rightElbow := Joint.zero, rightShoulder := Joint.zero,
    torso := Joint.zero, head := Joint.zero, leftHip := Joint.zero, rightHip := Joint.zero }

/-! ## The global state -/

/-- What can go wrong at run time without the program noticing. -/
inductive Fault
  /-- An array of `MAX_USERS` elements was indexed with `index` outside `0 .. MAX_USERS-1`
  (undefined behaviour in C++; the source has no check in front of the access). -/
  | outOfBounds (index : Int)
  /-- The handler dereferenced `async.data` before any publish had set it. -/
  | nullDeref
  deriving DecidableEq, Repr

/-- The `int` variables whose address the program stores in `async.data`. -/
inductive Var
  | currentUserState
  | currentSkeletonState
  | gestureType
  deriving DecidableEq, Repr

/-- One call of `uv_async_send`: the variable `async.data` pointed at, and the value
that variable held at the time of the call. -/
structure Publish where
  var : Var
  value : Int
  deriving DecidableEq, Repr

/-- The globals of `Main.cpp` / `Main.h`, the local `gestureType` of `frameWorker` (its
address escapes into `async.data`), the pending flag of the libuv async handle, and two
logs: `sent` lists the calls of `uv_async_send`, `emitted` the strings handed to
`node::MakeCallback`, both oldest first. -/
structure World where
  g_visibleUsers : Fin MAX_USERS → Bool
  g_skeletonStates : Fin MAX_USERS → nite.SkeletonState
  currentUserState : Int
  lastUserEventDispatched : Int
  currentSkeletonState : Int
  lastSkeletalEventDispatched : Int
  gestureType : Int
  asyncData : Option Var
  asyncPending : Bool
  keepWorkerRunning : Bool
  skeleton : Skeleton
  sent : List Publish
  emitted : List String

/-- The state at program start: `g_visibleUsers = {false}`,
`g_skeletonStates = {nite::SKELETON_NONE}` (Main.cpp:27-28), every other global zero. -/
def World.init : World :=
  { g_visibleUsers := fun _ => false
    g_skeletonStates := fun _ => nite.SkeletonState.SKELETON_NONE
    currentUserState := 0
    lastUserEventDispatched := 0
    currentSkeletonState := 0
    lastSkeletalEventDispatched := 0
    gestureType := 0
    asyncData := none
    asyncPending := false
    keepWorkerRunning := false
    skeleton := Skeleton.zero
    sent := []
    emitted := [] }

/-- The value of an `int` variable, `*((int*) p)`. -/
def World.read (w : World) : Var → Int
  | Var.currentUserState => w.currentUserState
  | Var.currentSkeletonState => w.currentSkeletonState
  | Var.gestureType => w.gestureType

/-- Indexing `a[i]` for an array of `MAX_USERS` elements. -/
def readAt {α : Type} (a : Fin MAX_USERS → α) (i : Int) : Except Fault α :=
  if h : 0 ≤ i ∧ i < (MAX_USERS : Int) then
    Except.ok (a ⟨i.toNat, by have := h.1; have := h.2; omega⟩)
  else Except.error (Fault.outOfBounds i)

/-- The assignment `a[i] = v` for an array of `MAX_USERS` elements. -/
def writeAt {α : Type} (a : Fin MAX_USERS → α) (i : Int) (v : α) :
    Except Fault (Fin MAX_USERS → α) :=
  if h : 0 ≤ i ∧ i < (MAX_USERS : Int) then
    Except.ok (Function.update a ⟨i.toNat, by have := h.1; have := h.2; omega⟩ v)
  else Except.error (Fault.outOfBounds i)

/-- The pair `async.data = (void*) &v; uv_async_send(&async);`. -/
def publish (w : World) (v : Var) : World :=
  { w with asyncData := some v, asyncPending := true,
           sent := w.sent ++ [{ var := v, value := w.read v }] }

/-! ## updateUserState (Main.cpp:444-490) -/

/-- What the feed reports for one user in one frame (`nite::UserData`). -/
structure UserData where
  id : Int
  isNew : Bool
  isVisible : Bool
  isLost : Bool
  skeletonState : nite.SkeletonState
  deriving DecidableEq, Repr

/-- The `switch` of Main.cpp:465-483. -/
def skeletonSymbol (c : EventCodes) : nite.SkeletonState → Int
  | nite.SkeletonState.SKELETON_NONE => c.SKELETON_STOPPED_TRACKING
  | nite.SkeletonState.SKELETON_CALIBRATING => c.SKELETON_CALIBRATING
  | nite.SkeletonState.SKELETON_TRACKED => c.SKELETON_TRACKING
  | nite.SkeletonState.SKELETON_CALIBRATION_ERROR_NOT_IN_POSE => c.SKELETON_CALIBRATION_FAILED
  | nite.SkeletonState.SKELETON_CALIBRATION_ERROR_HANDS => c.SKELETON_CALIBRATION_FAILED
  | nite.SkeletonState.SKELETON_CALIBRATION_ERROR_LEGS => c.SKELETON_CALIBRATION_FAILED
  | nite.SkeletonState.SKELETON_CALIBRATION_ERROR_HEAD => c.SKELETON_CALIBRATION_FAILED
  | nite.SkeletonState.SKELETON_CALIBRATION_ERROR_TORSO => c.SKELETON_CALIBRATION_FAILED

/-- Lines 446-454: the `if / else if` chain that sets `currentUserState`.  The array is
read only where the short-circuit `&&` reaches it. -/
def updateLifecycle (c : EventCodes) (w : World) (user : UserData) : Except Fault World :=
  if user.isNew then
    pure { w with currentUserState := c.NEW_USER }
  else do
    let becameVisible ←
      if user.isVisible then (do let was ← readAt w.g_visibleUsers user.id; pure (!was))
      else pure false
    if becameVisible then
      pure { w with currentUserState := c.USER_IS_VISIBLE }
    else do
      let wentAway ←
        if !user.isVisible then readAt w.g_visibleUsers user.id else pure false
      if wentAway then
        pure { w with currentUserState := c.USER_IS_OUT_OF_SCENE }
      else if user.isLost then
        pure { w with currentUserState := c.USER_IS_LOST }
      else
        pure w

/-- Lines 456-459. -/
def publishLifecycle (w : World) : World :=
  if w.currentUserState ≠ 0 ∧ w.lastUserEventDispatched ≠ w.currentUserState then
    publish w Var.currentUserState
  else w

/-- Lines 463-484. -/
def updateCalibration (c : EventCodes) (w : World) (user : UserData) : Except Fault World := do
  let stored ← readAt w.g_skeletonStates user.id
  if stored ≠ user.skeletonState then
    let arr ← writeAt w.g_skeletonStates user.id user.skeletonState
    pure { w with g_skeletonStates := arr,
                  currentSkeletonState := skeletonSymbol c user.skeletonState }
  else
    pure w

/-- Lines 486-489. -/
def publishCalibration (w : World) : World :=
  if w.currentSkeletonState ≠ 0 ∧ w.lastSkeletalEventDispatched ≠ w.currentSkeletonState then
    publish w Var.currentSkeletonState
  else w

/-- `updateUserState(user, ts)`; the timestamp is unused by the source. -/
def updateUserState (c : EventCodes) (w : World) (user : UserData) : Except Fault World := do
  let w1 ← updateLifecycle c w user
  let w2 := publishLifecycle w1
  let vis ← writeAt w2.g_visibleUsers user.id user.isVisible
  let w3 := { w2 with g_visibleUsers := vis }
  let w4 ← updateCalibration c w3 user
  pure (publishCalibration w4)

/-! ## onTrackingEvent (Main.cpp:105-165) and its invocation by the event loop -/

/-- A lifecycle `case`: build the string, `lastUserEventDispatched = currentUserState`,
then the common tail `node::MakeCallback(context_obj, "on", 1, args)`. -/
def World.forwardUser (w : World) (eventString : String) : World :=
  { w with lastUserEventDispatched := w.currentUserState,
           emitted := w.emitted ++ [eventString] }

/-- A calibration `case`: `lastSkeletalEventDispatched = currentSkeletonState`. -/
def World.forwardSkeleton (w : World) (eventString : String) : World :=
  { w with lastSkeletalEventDispatched := w.currentSkeletonState,
           emitted := w.emitted ++ [eventString] }

/-- A gesture `case` or the `default`: only the string is forwarded. -/
def World.forward (w : World) (eventString : String) : World :=
  { w with emitted := w.emitted ++ [eventString] }

/-- `onTrackingEvent(handle, status)`: `event` is read through the pointer `handle->data`
at the time of the call.  The `switch` is written as a chain of comparisons in the order
of its labels. -/
def onTrackingEvent (c : EventCodes) (w : World) : Except Fault World :=
  match w.asyncData with
  | none => Except.error Fault.nullDeref
  | some p =>
    let event := w.read p
    if event = c.NEW_USER then pure (w.forwardUser "NEW_USER")
    else if event = c.USER_IS_VISIBLE then pure (w.forwardUser "USER_IS_VISIBLE")
    else if event = c.USER_IS_OUT_OF_SCENE then pure (w.forwardUser "USER_IS_OUT_OF_SCENE")
    else if event = c.USER_IS_LOST then pure (w.forwardUser "USER_IS_LOST")
    else if event = c.SKELETON_STOPPED_TRACKING then
      pure (w.forwardSkeleton "SKELETON_STOPPED_TRACKING")
    else if event = c.SKELETON_TRACKING then pure (w.forwardSkeleton "SKELETON_TRACKING")
    else if event = c.SKELETON_CALIBRATING then
      pure (w.forwardSkeleton "SKELETON_CALIBRATING")
    else if event = c.SKELETON_CALIBRATION_FAILED then
      pure (w.forwardSkeleton "SKELETON_CALIBRATION_FAILED")
    else if event = c.SWIPE_LEFT then pure (w.forward "GESTURE_SWIPE_LEFT")
    else if event = c.SWIPE_RIGHT then pure (w.forward "GESTURE_SWIPE_RIGHT")
    else if event = c.SWIPE_UP then pure (w.forward "GESTURE_SWIPE_UP")
    else if event = c.SWIPE_DOWN then pure (w.forward "GESTURE_SWIPE_DOWN")
    else if event = c.WAVE then pure (w.forward "GESTURE_WAVE")
    else pure (w.forward "No known event type found")

/-- One turn of the foreground loop (`uv_run`): the callback registered by
`uv_async_init(loop, &async, onTrackingEvent)` runs when a `uv_async_send` is pending, and
one run serves all sends made since the previous run. -/
def deliver (c : EventCodes) (w : World) : Except Fault World :=
  if w.asyncPending then onTrackingEvent c { w with asyncPending := false }
  else pure w

/-! ## Reading the publish log -/

/-- The calls of `uv_async_send` made on the way from `w` to `w'`. -/
def sentSince (w w' : World) : List Publish := w'.sent.drop w.sent.length

/-- The lifecycle symbols among some publishes: those made with `async.data` pointing at
`currentUserState`. -/
def lifecycleOf (l : List Publish) : List Int :=
  (l.filter (fun p => p.var = Var.currentUserState)).map Publish.value

/-- The calibration symbols among some publishes: those made with `async.data` pointing at
`currentSkeletonState`. -/
def calibrationOf (l : List Publish) : List Int :=
  (l.filter (fun p => p.var = Var.currentSkeletonState)).map Publish.value

/-! ## frameWorker (Main.cpp:271-339) -/

/-- What `mapJointFromSkeleton` reads of one NiTE joint: the position components after
the `(int)` cast, the values of the three rotation expressions (`atan2` / `asin` of the
orientation quaternion, times `180/PI`), and whether `getPositionConfidence() > .5`. -/
structure JointReading where
  x : Int
  y : Int
  z : Int
  xRotation : ℚ
  yRotation : ℚ
  zRotation : ℚ
  confident : Bool

/-- `mapJointFromSkeleton(j, s)`: the joint of the NiTE skeleton that has the type stored
in `j` is copied into `j`. -/
def mapJointFromSkeleton (j : Joint) (s : nite.JointType → JointReading) : Joint :=
  { j with
    xPos := (s j.type).x
    yPos := (s j.type).y
    zPos := (s j.type).z
    xRotation := (s j.type).xRotation
    yRotation := (s j.type).yRotation
    zRotation := (s j.type).zRotation
    isActive := if (s j.type).confident then true else false }

/-- `mapSkeleton(skeleton, niteskeleton)`. -/
def mapSkeleton (skeleton : Skeleton) (niteskeleton : nite.JointType → JointReading) :
    Skeleton :=
  { leftHand := mapJointFromSkeleton skeleton.leftHand niteskeleton
    leftElbow := mapJointFromSkeleton skeleton.leftElbow niteskeleton
    leftShoulder := mapJointFromSkeleton skeleton.leftShoulder niteskeleton
    rightHand := mapJointFromSkeleton skeleton.rightHand niteskeleton
    rightElbow := mapJointFromSkeleton skeleton.rightElbow niteskeleton
    rightShoulder := mapJointFromSkeleton skeleton.rightShoulder niteskeleton
    torso := mapJointFromSkeleton skeleton.torso niteskeleton
    head := mapJointFromSkeleton skeleton.head niteskeleton
    leftHip := mapJointFromSkeleton skeleton.leftHip niteskeleton
    rightHip := mapJointFromSkeleton skeleton.rightHip niteskeleton }

/-- Lines 302-311: every joint of the snapshot is set inactive. -/
def deactivateJoints (skeleton : Skeleton) : Skeleton :=
  { leftHand := { skeleton.leftHand with isActive := false }
    leftElbow := { skeleton.leftElbow with isActive := false }
    leftShoulder := { skeleton.leftShoulder with isActive := false }
    rightHand := { skeleton.rightHand with isActive := false }
    rightElbow := { skeleton.rightElbow with isActive := false }
    rightShoulder := { skeleton.rightShoulder with isActive := false }
    head := { skeleton.head with isActive := false }
    torso := { skeleton.torso with isActive := false }
    rightHip := { skeleton.rightHip with isActive := false }
    leftHip := { skeleton.leftHip with isActive := false } }

/-- One element of `userTrackerFrame.getUsers()`: the user data, the joints of
`user.getSkeleton()`, and the value `gst.updateSkeleton(skeleton)` returns in this frame
(`gestures/GestureRecognizer.c` is not among the sources; its result is an input). -/
structure UserFrame where
  user : UserData
  joints : nite.JointType → JointReading
  gesture : Int

/-- One element of `handTrackerFrame.getGestures()`. -/
structure GestureData where
  isComplete : Bool
  isWave : Bool

/-- What the two `readFrame` calls of one loop iteration deliver. -/
structure Frame where
  userTrackerOk : Bool
  handTrackerOk : Bool
  users : List UserFrame
  gestures : List GestureData

/-- The body of the loop over `users` (lines 296-323). -/
def processUser (c : EventCodes) (w : World) (uf : UserFrame) : Except Fault World := do
  let w1 ← updateUserState c w uf.user
  if uf.user.isNew then
    pure { w1 with skeleton := deactivateJoints w1.skeleton }
  else if uf.user.skeletonState = nite.SkeletonState.SKELETON_TRACKED then
    let w2 := { w1 with skeleton := mapSkeleton w1.skeleton uf.joints }
    let w3 := { w2 with gestureType := uf.gesture }
    if w3.gestureType ≠ c.NO_GESTURE then
      pure (publish w3 Var.gestureType)
    else
      pure w3
  else
    pure w1

/-- The body of the loop over `gestures` (lines 329-336). -/
def processGesture (c : EventCodes) (w : World) (g : GestureData) : World :=
  if g.isComplete then
    if g.isWave then publish { w with gestureType := c.WAVE } Var.gestureType
    else w
  else w

/-- One iteration of `while (keepWorkerRunning)`: nothing happens once the flag is off or
when one of the two reads fails (`continue`). -/
def frameWorkerIteration (c : EventCodes) (w : World) (f : Frame) : Except Fault World :=
  if !w.keepWorkerRunning then pure w
  else if !f.userTrackerOk then pure w
  else if !f.handTrackerOk then pure w
  else do
    let w1 ← f.users.foldlM (processUser c) w
    pure (f.gestures.foldl (processGesture c) w1)

/-! ## Schedules: background steps interleaved with foreground deliveries -/

/-- One step of a run, seen at the granularity of whole calls: the background thread
calls `updateUserState` for a user of the next frame, or runs a whole loop iteration of
`frameWorker`, or the foreground loop takes a turn. -/
inductive Step
  | frame (user : UserData)
  | iteration (f : Frame)
  | deliver

/-- Running a schedule, first step first. -/
def run (c : EventCodes) (w : World) : List Step → Except Fault World
  | [] => pure w
  | Step.frame user :: rest => do
      let w1 ← updateUserState c w user
      run c w1 rest
  | Step.iteration f :: rest => do
      let w1 ← frameWorkerIteration c w f
      run c w1 rest
  | Step.deliver :: rest => do
      let w1 ← deliver c w
      run c w1 rest

/-- The schedule in which the foreground loop takes a turn after every frame, so that
each notification is handled before the next frame. -/
def ackSchedule : List UserData → List Step
  | [] => []
  | user :: rest => Step.frame user :: Step.deliver :: ackSchedule rest

/-! ## onDeviceEvent, initialize and close (Main.cpp:81-96, 173-254) -/

/-- `onDeviceEvent(eventType)`. -/
def onDeviceEvent (c : EventCodes) (w : World) (eventType : Int) : World :=
  if eventType = c.DEVICE_INITIALIZED then w.forward "DEVICE_INITIALIZED"
  else if eventType = c.DEVICE_ERROR then w.forward "DEVICE_ERROR"
  else w.forward "No known event type found"

/-- Lines 219-242 of `initialize`: the set-up of the joints of the global `skeleton`,
assignment by assignment. -/
def initializeJoints (skeleton : Skeleton) : Skeleton :=
  { leftHand := { skeleton.leftHand with
      isActive := false, type := nite.JointType.JOINT_LEFT_HAND }
    leftElbow := { skeleton.leftElbow with
      isActive := false, type := nite.JointType.JOINT_LEFT_ELBOW }
    leftShoulder := { skeleton.leftShoulder with
      isActive := false, type := nite.JointType.JOINT_LEFT_SHOULDER }
    rightHand := { skeleton.rightHand with
      isActive := false, type := nite.JointType.JOINT_RIGHT_HAND }
    rightElbow := { skeleton.rightElbow with
      isActive := false, type := nite.JointType.JOINT_RIGHT_ELBOW }
    rightShoulder := { skeleton.rightShoulder with
      type := nite.JointType.JOINT_RIGHT_SHOULDER }
    torso := { skeleton.torso with isActive := false, type := nite.JointType.JOINT_TORSO }
    head := { skeleton.head with isActive := false, type := nite.JointType.JOINT_HEAD }
    leftHip := { skeleton.leftHip with
      isActive := false, type := nite.JointType.JOINT_LEFT_HIP }
    rightHip := { skeleton.rightHip with
      isActive := false, type := nite.JointType.JOINT_RIGHT_HIP } }

/-- The function `initialize(args)` up to the start of the event loop.  The three
arguments say whether `nite::NiTE::initialize()`, `userTracker.create()` and
`handTracker.create()` returned `STATUS_OK`. -/
def initializeCall (c : EventCodes) (w : World)
    (niteOk userTrackerOk handTrackerOk : Bool) : World :=
  if !niteOk then onDeviceEvent c w c.DEVICE_ERROR
  else if !userTrackerOk then onDeviceEvent c w c.DEVICE_ERROR
  else if !handTrackerOk then w
  else
    onDeviceEvent c
      { w with keepWorkerRunning := true, skeleton := initializeJoints w.skeleton }
      c.DEVICE_INITIALIZED

/-- The function `close(args)`. -/
def close (w : World) : World :=
  { w with keepWorkerRunning := false }

/-- The four lifecycle symbols. -/
def EventCodes.userSymbols (c : EventCodes) : List Int :=
  [c.NEW_USER, c.USER_IS_VISIBLE, c.USER_IS_OUT_OF_SCENE, c.USER_IS_LOST]

/-- The four calibration symbols. -/
def EventCodes.skeletonSymbols (c : EventCodes) : List Int :=
  [c.SKELETON_STOPPED_TRACKING, c.SKELETON_TRACKING, c.SKELETON_CALIBRATING,
   c.SKELETON_CALIBRATION_FAILED]

/-! ## Floating-point arithmetic

A C `float` or `double` is modelled by the rational number it denotes.  An operation
computes the exact result and rounds it to the nearest number with 24 (`float`) or 53
(`double`) significant bits, ties to even, as IEEE 754 arithmetic does with
`FLT_EVAL_METHOD == 0`.  The exponent range is not modelled (no overflow or underflow; the
numbers here are distances between joints).  Infinities and NaN are no rationals: the one
operation that can produce them, division by zero, returns `none`. -/

/-- The integer nearest to `x`, ties to even. -/
def roundHalfEven (x : ℚ) : Int :=
  let f := ⌊x⌋
  let r := x - f
  if r < 1 / 2 then f
  else if 1 / 2 < r then f + 1
  else if f % 2 = 0 then f
  else f + 1

/-- The number with `p` significant bits nearest to `x`, ties to even. -/
def roundTo (p : Nat) (x : ℚ) : ℚ :=
  if x = 0 then 0
  else
    let e := Int.log 2 |x|
    let ulp : ℚ := 2 ^ (e - ((p : Int) - 1))
    roundHalfEven (x / ulp) * ulp

/-- The integer nearest to `√y`, ties to even. -/
def roundSqrt (y : ℚ) : Nat :=
  let n := Nat.sqrt ⌊y⌋₊
  let mid : ℚ := (n + 1 / 2) ^ 2
  if y < mid then n
  else if mid < y then n + 1
  else if n % 2 = 0 then n
  else n + 1

/-- The library function `sqrt` on a `double`: the correctly rounded square root (53
bits).  It is only called on sums of squares; `0` stands for the result on `0`. -/
def sqrtD (x : ℚ) : ℚ :=
  if x ≤ 0 then 0
  else
    let ulp : ℚ := 2 ^ (Int.log 2 x / 2 - 52)
    roundSqrt (x / (ulp * ulp)) * ulp

/-- `pow(d, 2)` for an `int` difference `d` (converted to `double` exactly). -/
def powD (d : Int) : ℚ := roundTo 53 ((d : ℚ) ^ 2)

/-- Addition of two `double`s. -/
def addD (a b : ℚ) : ℚ := roundTo 53 (a + b)

/-- Conversion to `float` (of a `double` on assignment, of an `int` operand). -/
def toFloat (x : ℚ) : ℚ := roundTo 24 x

/-- Addition of two `float`s. -/
def addF (a b : ℚ) : ℚ := roundTo 24 (a + b)

/-- Multiplication of two `float`s. -/
def mulF (a b : ℚ) : ℚ := roundTo 24 (a * b)

/-- Division of two `float`s; `none` when the divisor is zero (the quotient is then an
infinity or NaN). -/
def divF (a b : ℚ) : Option ℚ :=
  if b = 0 then none else some (roundTo 24 (a / b))

/-- The conversion `(int) x` of a floating-point value: truncation toward zero; `none`
when the truncated value does not fit a 32-bit `int` (undefined behaviour). -/
def truncInt (x : ℚ) : Option Int :=
  if -(2 : ℚ) ^ 31 - 1 < x ∧ x < 2 ^ 31 then
    some (if 0 ≤ x then ⌊x⌋ else ⌈x⌉)
  else none

/-! ## mapJointToJSObject (Main.cpp:341-396) -/

/-- The expression
`sqrt( pow(a.xPos - b.xPos, 2) + pow(a.yPos - b.yPos, 2) + pow(a.zPos - b.zPos, 2) )`
assigned to a `float`, as in lines 354-356 and 365-367.  The `int` subtractions are
taken exact (they cannot overflow for coordinates of magnitude below `2^30`). -/
def distance (a b : Joint) : ℚ :=
  toFloat (sqrtD (addD (addD (powD (a.xPos - b.xPos)) (powD (a.yPos - b.yPos)))
    (powD (a.zPos - b.zPos))))

/-- Lines 354-357 (left arm) and 365-368 (right arm), which differ in the variable names
only: the three distances and then
`(int) dist_h2s/(dist_e2s + dist_h2e) *100` assigned to an `int`.  The cast applies to
`dist_h2s` alone; the quotient and the product are `float` operations; the assignment
truncates. -/
def percentExtended (hand elbow shoulder : Joint) : Option Int :=
  let dist_h2e := distance hand elbow
  let dist_h2s := distance hand shoulder
  let dist_e2s := distance elbow shoulder
  do
    let truncated ← truncInt dist_h2s
    let quotient ← divF (toFloat truncated) (addF dist_e2s dist_h2e)
    truncInt (mulF quotient 100)

/-- The JavaScript object built by `mapJointToJSObject`; `percentExtended` is `none`
when the property is not set. -/
structure JSJoint where
  x : Int
  y : Int
  z : Int
  xRotation : ℚ
  yRotation : ℚ
  zRotation : ℚ
  percentExtended : Option Int
  active : Bool
  deriving DecidableEq, Repr

/-- Lines 344-378: the joint selected by `jointName` together with the values of
`left_percentExtended` and `right_percentExtended`; `none` when the computation of a
percentage is undefined. -/
def selectJoint (skeleton : Skeleton) (jointName : String) : Option (Joint × Int × Int) :=
  if jointName = "torso" then some (skeleton.torso, -1, -1)
  else if jointName = "head" then some (skeleton.head, -1, -1)
  else if jointName = "left_hand" then
    (percentExtended skeleton.leftHand skeleton.leftElbow skeleton.leftShoulder).map
      fun left_percentExtended => (skeleton.leftHand, left_percentExtended, -1)
  else if jointName = "left_elbow" then some (skeleton.leftElbow, -1, -1)
  else if jointName = "left_shoulder" then some (skeleton.leftElbow, -1, -1)
  else if jointName = "left_hip" then some (skeleton.leftHip, -1, -1)
  else if jointName = "right_hand" then
    (percentExtended skeleton.rightHand skeleton.rightElbow skeleton.rightShoulder).map
      fun right_percentExtended => (skeleton.rightHand, -1, right_percentExtended)
  else if jointName = "right_elbow" then some (skeleton.rightElbow, -1, -1)
  else if jointName = "right_shoulder" then some (skeleton.rightElbow, -1, -1)
  else if jointName = "right_hip" then some (skeleton.rightHip, -1, -1)
  else some (Joint.zero, -1, -1)

/-- `mapJointToJSObject(jointName)` on the global `skeleton`. -/
def mapJointToJSObject (skeleton : Skeleton) (jointName : String) : Option JSJoint :=
  (selectJoint skeleton jointName).map fun (j, left_percentExtended, right_percentExtended) =>
    { x := j.xPos
      y := j.yPos
      z := j.zPos
      xRotation := j.xRotation
      yRotation := j.yRotation
      zRotation := j.zRotation
      percentExtended :=
        if j.type = nite.JointType.JOINT_LEFT_HAND then some left_percentExtended
        else if j.type = nite.JointType.JOINT_RIGHT_HAND then some right_percentExtended
        else none
      active := j.isActive }

/-- An argument of the JavaScript call `getJoints(...)`: a string or any other value. -/
inductive JSArg
  | string (s : String)
  | other

/-- What `getJoints` hands back: the object `skel_obj`, as the list of its property
assignments in order, or `Undefined` after the `TypeError` was thrown. -/
inductive GetJointsResult
  | object (assignments : List (String × JSJoint))
  | typeError

/-- The loop of `getJoints` (lines 60-71) over the remaining arguments. -/
def getJointsLoop (skeleton : Skeleton) :
    List JSArg → List (String × JSJoint) → Option GetJointsResult
  | [], skel_obj => some (GetJointsResult.object skel_obj)
  | JSArg.other :: _, _ => some GetJointsResult.typeError
  | JSArg.string s :: rest, skel_obj =>
    (mapJointToJSObject skeleton s).bind fun joint =>
      getJointsLoop skeleton rest (skel_obj ++ [(s, joint)])

/-- `getJoints(args)`. -/
def getJoints (skeleton : Skeleton) (args : List JSArg) : Option GetJointsResult :=
  getJointsLoop skeleton args []

/-- The three position fields of two joints agree. -/
def Joint.samePosition (a b : Joint) : Prop :=
  a.xPos = b.xPos ∧ a.yPos = b.yPos ∧ a.zPos = b.zPos

instance (a b : Joint) : Decidable (a.samePosition b) := by
  unfold Joint.samePosition; exact inferInstance

/-- Every coordinate of the joint has magnitude at most `2^24` (sensor coordinates are
millimetres). -/
def Joint.inRange (j : Joint) : Prop :=
  |j.xPos| ≤ 2 ^ 24 ∧ |j.yPos| ≤ 2 ^ 24 ∧ |j.zPos| ≤ 2 ^ 24

instance (j : Joint) : Decidable j.inRange := by
  unfold Joint.inRange; exact inferInstance

/-! ## The two arms, and sample data for concrete runs -/

/-- The two arms for which `mapJointToJSObject` computes `percentExtended`. -/
inductive Arm
  | left
  | right
  deriving DecidableEq, Repr

/-- The joint name that selects the hand of the arm. -/
def Arm.handName : Arm → String
  | Arm.left => "left_hand"
  | Arm.right => "right_hand"

/-- The NiTE type of the hand of the arm. -/
def Arm.handType : Arm → nite.JointType
  | Arm.left => nite.JointType.JOINT_LEFT_HAND
  | Arm.right => nite.JointType.JOINT_RIGHT_HAND

/-- The hand joint of the arm in a snapshot. -/
def Arm.hand (skeleton : Skeleton) : Arm → Joint
  | Arm.left => skeleton.leftHand
  | Arm.right => skeleton.rightHand

/-- The elbow joint of the arm in a snapshot. -/
def Arm.elbow (skeleton : Skeleton) : Arm → Joint
  | Arm.left => skeleton.leftElbow
  | Arm.right => skeleton.rightElbow

/-- The shoulder joint of the arm in a snapshot. -/
def Arm.shoulder (skeleton : Skeleton) : Arm → Joint
  | Arm.left => skeleton.leftShoulder
  | Arm.right => skeleton.rightShoulder

/-- An active joint at an integer position, rotations zero. -/
def jointAt (type : nite.JointType) (x y z : Int) : Joint :=
  { type := type, xPos := x, yPos := y, zPos := z,
    xRotation := 0, yRotation := 0, zRotation := 0, isActive := true }

/-- A tracked skeleton, every joint active (millimetres): the left arm is stretched along
a straight line, shoulder `(0,0,2000)`, elbow `(100,100,2000)`, hand `(200,200,2000)`; the
right arm is bent. -/
def trackedSkeleton : Skeleton :=
  { leftHand := jointAt nite.JointType.JOINT_LEFT_HAND 200 200 2000
    leftElbow := jointAt nite.JointType.JOINT_LEFT_ELBOW 100 100 2000
    leftShoulder := jointAt nite.JointType.JOINT_LEFT_SHOULDER 0 0 2000
    rightHand := jointAt nite.JointType.JOINT_RIGHT_HAND (-300) (-100) 1800
    rightElbow := jointAt nite.JointType.JOINT_RIGHT_ELBOW (-350) (-250) 2000
    rightShoulder := jointAt nite.JointType.JOINT_RIGHT_SHOULDER (-300) 0 2000
    torso := jointAt nite.JointType.JOINT_TORSO (-150) (-300) 2000
    head := jointAt nite.JointType.JOINT_HEAD (-150) 250 2000
    leftHip := jointAt nite.JointType.JOINT_LEFT_HIP (-50) (-500) 2000
    rightHip := jointAt nite.JointType.JOINT_RIGHT_HIP (-250) (-500) 2000 }

/-- The tracked skeleton with the right elbow reported at the position of the right
shoulder, `(-300,0,2000)`, and the right hand 300 mm in front of it. -/
def elbowAtShoulderSkeleton : Skeleton :=
  { trackedSkeleton with
    rightHand := jointAt nite.JointType.JOINT_RIGHT_HAND (-300) 0 1700
    rightElbow := jointAt nite.JointType.JOINT_RIGHT_ELBOW (-300) 0 2000 }

/-- The tracked skeleton with the right hand, elbow and shoulder all reported at
`(-300,0,2000)`. -/
def armCollapsedSkeleton : Skeleton :=
  { trackedSkeleton with
    rightHand := jointAt nite.JointType.JOINT_RIGHT_HAND (-300) 0 2000
    rightElbow := jointAt nite.JointType.JOINT_RIGHT_ELBOW (-300) 0 2000 }

/-- A user frame of subject 0: visible, skeleton TRACKED, all joints read at the origin
with low confidence, and `gesture` returned by the recogniser. -/
def trackedUserFrame (gesture : Int) : UserFrame :=
  { user := { id := 0, isNew := false, isVisible := true, isLost := false,
              skeletonState := nite.SkeletonState.SKELETON_TRACKED }
    joints := fun _ =>
      { x := 0, y := 0, z := 0, xRotation := 0, yRotation := 0, zRotation := 0,
        confident := false }
    gesture := gesture }

/-- A frame with one tracked user and no hand-tracker gesture. -/
def trackedFrame (gesture : Int) : Frame :=
  { userTrackerOk := true, handTrackerOk := true,
    users := [trackedUserFrame gesture], gestures := [] }

/-- The state after a successful `initialize()` at program start. -/
def startedWorld : World :=
  initializeCall sampleCodes World.init true true true

/-- A new, visible user whose skeleton is already CALIBRATING. -/
def newCalibratingUser : UserData :=
  { id := 0, isNew := true, isVisible := true, isLost := false,
    skeletonState := nite.SkeletonState.SKELETON_CALIBRATING }

/-! ## Closed forms and invariants used in the proofs -/

/-- What holds at program start and after every step: a pending notification has a slot
to read, and each of the two state variables holds `0` or one of its four symbols. -/
structure World.Consistent (c : EventCodes) (w : World) : Prop where
  slot : w.asyncPending = true → w.asyncData ≠ none
  user : w.currentUserState = 0 ∨ w.currentUserState ∈ c.userSymbols
  skeleton : w.currentSkeletonState = 0 ∨ w.currentSkeletonState ∈ c.skeletonSymbols


/-- The value the chain of lines 446-454 leaves in `currentUserState`, given the stored
visibility flag `wasVisible` and the previous value `cur`. -/
def nextUserState (c : EventCodes) (u : UserData) (wasVisible : Bool) (cur : Int) : Int :=
  if u.isNew = true then c.NEW_USER
  else if u.isVisible = true ∧ wasVisible = false then c.USER_IS_VISIBLE
  else if u.isVisible = false ∧ wasVisible = true then c.USER_IS_OUT_OF_SCENE
  else if u.isLost = true then c.USER_IS_LOST
  else cur

/-- The value lines 463-484 leave in `currentSkeletonState`, given the stored raw state
`stored` and the previous value `cur`. -/
def nextSkeletonState (c : EventCodes) (u : UserData) (stored : nite.SkeletonState)
    (cur : Int) : Int :=
  if stored = u.skeletonState then cur else skeletonSymbol c u.skeletonState

end NuiMotion

namespace NuiMotion

/-! # Theorems -/

/-! ## Array access -/

theorem readAt_ok_iff {α : Type} (a : Fin MAX_USERS → α) (i : Int) (v : α) :
    readAt a i = Except.ok v ↔ i = 0 ∧ a 0 = v := by
  unfold readAt
  split
  · rename_i h
    have h2 : i < 1 := h.2
    have hi : i = 0 := by have := h.1; omega
    subst hi
    simp
  · rename_i h
    simp
    intro hi
    subst hi
    simp at h

theorem readAt_zero {α : Type} (a : Fin MAX_USERS → α) : readAt a 0 = Except.ok (a 0) :=
  (readAt_ok_iff a 0 (a 0)).2 ⟨rfl, rfl⟩

theorem writeAt_zero {α : Type} (a : Fin MAX_USERS → α) (v : α) :
    writeAt a 0 v = Except.ok (fun _ => v) := by
  unfold writeAt
  simp
  funext j
  have : j = 0 := Subsingleton.elim _ _
  subst this
  simp [Function.update]

theorem readAt_error {α : Type} (a : Fin MAX_USERS → α) (i : Int)
    (h : ¬ (0 ≤ i ∧ i < (MAX_USERS : Int))) :
    readAt a i = Except.error (Fault.outOfBounds i) := by
  unfold readAt
  rw [dif_neg h]

theorem writeAt_error {α : Type} (a : Fin MAX_USERS → α) (i : Int) (v : α)
    (h : ¬ (0 ≤ i ∧ i < (MAX_USERS : Int))) :
    writeAt a i v = Except.error (Fault.outOfBounds i) := by
  unfold writeAt
  rw [dif_neg h]

/-- Sequencing after a step that succeeded. -/
theorem ok_bind {α β : Type} (a : α) (f : α → Except Fault β) :
    (Except.ok a >>= f) = f a := rfl

/-- Sequencing after a step that failed. -/
theorem error_bind {α β : Type} (e : Fault) (f : α → Except Fault β) :
    ((Except.error e : Except Fault α) >>= f) = Except.error e := rfl

theorem pure_eq_ok {α : Type} (a : α) : (pure a : Except Fault α) = Except.ok a := rfl

/-! ## One call of updateUserState -/

/-- Lines 446-454 for subject 0. -/
theorem updateLifecycle_zero (c : EventCodes) (w : World) (u : UserData) (hid : u.id = 0) :
    updateLifecycle c w u = Except.ok
      { w with currentUserState :=
          nextUserState c u (w.g_visibleUsers 0) w.currentUserState } := by
  obtain ⟨id, isNew, isVisible, isLost, raw⟩ := u
  simp only at hid
  subst hid
  simp only [updateLifecycle, readAt_zero, ok_bind, pure_eq_ok, nextUserState]
  cases isNew <;> cases isVisible <;> cases hw : w.g_visibleUsers 0 <;> cases isLost <;>
    simp [ok_bind, pure_eq_ok]

/-- Lines 463-484 for subject 0. -/
theorem updateCalibration_zero (c : EventCodes) (w : World) (u : UserData) (hid : u.id = 0) :
    updateCalibration c w u = Except.ok
      (if w.g_skeletonStates 0 ≠ u.skeletonState then
        { w with g_skeletonStates := fun _ => u.skeletonState,
                 currentSkeletonState := skeletonSymbol c u.skeletonState }
       else w) := by
  simp only [updateCalibration, hid, readAt_zero, writeAt_zero, ok_bind, pure_eq_ok]
  split <;> rfl

/-- The world that `updateUserState` returns for subject 0, field by field. -/
theorem updateUserState_spec (c : EventCodes) (w : World) (u : UserData) (hid : u.id = 0) :
    ∃ w', updateUserState c w u = Except.ok w' ∧
      w'.currentUserState = nextUserState c u (w.g_visibleUsers 0) w.currentUserState ∧
      w'.lastUserEventDispatched = w.lastUserEventDispatched ∧
      w'.g_visibleUsers = (fun _ => u.isVisible) ∧
      w'.g_skeletonStates = (fun _ => u.skeletonState) ∧
      w'.currentSkeletonState =
        nextSkeletonState c u (w.g_skeletonStates 0) w.currentSkeletonState ∧
      w'.lastSkeletalEventDispatched = w.lastSkeletalEventDispatched ∧
      w'.gestureType = w.gestureType ∧
      w'.skeleton = w.skeleton ∧
      w'.emitted = w.emitted ∧
      w'.keepWorkerRunning = w.keepWorkerRunning ∧
      w'.asyncPending =
        (if w'.currentSkeletonState ≠ 0 ∧
              w.lastSkeletalEventDispatched ≠ w'.currentSkeletonState
         then true
         else if w'.currentUserState ≠ 0 ∧ w.lastUserEventDispatched ≠ w'.currentUserState
         then true
         else w.asyncPending) ∧
      w'.asyncData =
        (if w'.currentSkeletonState ≠ 0 ∧
              w.lastSkeletalEventDispatched ≠ w'.currentSkeletonState
         then some Var.currentSkeletonState
         else if w'.currentUserState ≠ 0 ∧ w.lastUserEventDispatched ≠ w'.currentUserState
         then some Var.currentUserState
         else w.asyncData) ∧
      w'.sent = w.sent ++
        ((if w'.currentUserState ≠ 0 ∧ w.lastUserEventDispatched ≠ w'.currentUserState
          then [{ var := Var.currentUserState, value := w'.currentUserState }] else []) ++
         (if w'.currentSkeletonState ≠ 0 ∧
              w.lastSkeletalEventDispatched ≠ w'.currentSkeletonState
          then [{ var := Var.currentSkeletonState, value := w'.currentSkeletonState }]
          else [])) := by
  simp only [updateUserState, updateLifecycle_zero c w u hid, ok_bind, hid, writeAt_zero,
    updateCalibration_zero c _ u hid, pure_eq_ok]
  refine ⟨_, rfl, ?_⟩
  generalize nextUserState c u (w.g_visibleUsers 0) w.currentUserState = s
  have hfun : ∀ f : Fin MAX_USERS → nite.SkeletonState, f = fun _ => f 0 := by
    intro f; funext j; rw [Subsingleton.elim j 0]
  simp only [publishCalibration, publishLifecycle, publish, nextSkeletonState, World.read]
  split_ifs <;> simp_all

/-- C2 (as amended): in one call of `updateUserState` for an in-range subject whose stored
visibility flag is `wasVisible`, `currentUserState` becomes NEW_USER if `isNew`, else
USER_IS_VISIBLE if `isVisible` and not `wasVisible`, else USER_IS_OUT_OF_SCENE if not
`isVisible` and `wasVisible`, else USER_IS_LOST if `isLost`, else it is unchanged; and the
call publishes a lifecycle symbol exactly when the resulting `currentUserState` is non-zero
and differs from `lastUserEventDispatched` (whether or not one of the four conditions
held), the published symbol being that state. -/
theorem updateUserState_lifecycle_priority (c : EventCodes) (w : World) (u : UserData)
    (wasVisible : Bool) (h : readAt w.g_visibleUsers u.id = Except.ok wasVisible) :
    ∃ w', updateUserState c w u = Except.ok w' ∧
      w'.currentUserState =
        (if u.isNew = true then c.NEW_USER
         else if u.isVisible = true ∧ wasVisible = false then c.USER_IS_VISIBLE
         else if u.isVisible = false ∧ wasVisible = true then c.USER_IS_OUT_OF_SCENE
         else if u.isLost = true then c.USER_IS_LOST
         else w.currentUserState) ∧
      lifecycleOf (sentSince w w') =
        (if w'.currentUserState ≠ 0 ∧ w.lastUserEventDispatched ≠ w'.currentUserState
         then [w'.currentUserState] else []) := by
  obtain ⟨hid, hv⟩ := (readAt_ok_iff _ _ _).1 h
  obtain ⟨w', hrun, hcur, -, -, -, -, -, -, -, -, -, -, -, hsent⟩ :=
    updateUserState_spec c w u hid
  refine ⟨w', hrun, ?_, ?_⟩
  · rw [hcur, hv]; rfl
  · rw [sentSince, hsent, List.drop_left]
    unfold lifecycleOf
    split_ifs <;> simp

/-- C2 (the claim as stated fails): after one frame published NEW_USER and before the
handler has run, a frame in which none of the four conditions holds leaves
`currentUserState` unchanged and still publishes a lifecycle symbol. -/
theorem updateUserState_publishes_without_condition :
    (do
      let w1 ← updateUserState sampleCodes World.init
        { id := 0, isNew := true, isVisible := false, isLost := false,
          skeletonState := nite.SkeletonState.SKELETON_NONE }
      let wasVisible ← readAt w1.g_visibleUsers 0
      let w2 ← updateUserState sampleCodes w1
        { id := 0, isNew := false, isVisible := false, isLost := false,
          skeletonState := nite.SkeletonState.SKELETON_NONE }
      pure (wasVisible, w1.currentUserState, w2.currentUserState,
        lifecycleOf (sentSince w1 w2))) =
    (Except.ok (false, 200, 200, [200]) : Except Fault (Bool × Int × Int × List Int)) := by
  rfl

/-- C4: in a call of `updateUserState` for an in-range subject whose stored raw
calibration state is `stored`: if `stored` differs from the frame's raw state, the raw
state is stored and `currentSkeletonState` becomes SKELETON_STOPPED_TRACKING for
SKELETON_NONE, SKELETON_CALIBRATING for SKELETON_CALIBRATING, SKELETON_TRACKING for
SKELETON_TRACKED and SKELETON_CALIBRATION_FAILED for each of the five calibration errors;
if they are equal, the stored raw states and `currentSkeletonState` are unchanged. -/
theorem updateUserState_calibration_mapping (c : EventCodes) (w : World) (u : UserData)
    (stored : nite.SkeletonState)
    (h : readAt w.g_skeletonStates u.id = Except.ok stored) :
    ∃ w', updateUserState c w u = Except.ok w' ∧
      (stored ≠ u.skeletonState →
        readAt w'.g_skeletonStates u.id = Except.ok u.skeletonState ∧
        (u.skeletonState = nite.SkeletonState.SKELETON_NONE →
          w'.currentSkeletonState = c.SKELETON_STOPPED_TRACKING) ∧
        (u.skeletonState = nite.SkeletonState.SKELETON_CALIBRATING →
          w'.currentSkeletonState = c.SKELETON_CALIBRATING) ∧
        (u.skeletonState = nite.SkeletonState.SKELETON_TRACKED →
          w'.currentSkeletonState = c.SKELETON_TRACKING) ∧
        (u.skeletonState = nite.SkeletonState.SKELETON_CALIBRATION_ERROR_NOT_IN_POSE →
          w'.currentSkeletonState = c.SKELETON_CALIBRATION_FAILED) ∧
        (u.skeletonState = nite.SkeletonState.SKELETON_CALIBRATION_ERROR_HANDS →
          w'.currentSkeletonState = c.SKELETON_CALIBRATION_FAILED) ∧
        (u.skeletonState = nite.SkeletonState.SKELETON_CALIBRATION_ERROR_LEGS →
          w'.currentSkeletonState = c.SKELETON_CALIBRATION_FAILED) ∧
        (u.skeletonState = nite.SkeletonState.SKELETON_CALIBRATION_ERROR_HEAD →
          w'.currentSkeletonState = c.SKELETON_CALIBRATION_FAILED) ∧
        (u.skeletonState = nite.SkeletonState.SKELETON_CALIBRATION_ERROR_TORSO →
          w'.currentSkeletonState = c.SKELETON_CALIBRATION_FAILED)) ∧
      (stored = u.skeletonState →
        w'.g_skeletonStates = w.g_skeletonStates ∧
        w'.currentSkeletonState = w.currentSkeletonState) := by
  obtain ⟨hid, hv⟩ := (readAt_ok_iff _ _ _).1 h
  obtain ⟨w', hrun, -, -, -, hskel, hcur, -⟩ := updateUserState_spec c w u hid
  refine ⟨w', hrun, ?_, ?_⟩
  · intro hne
    have hcur' : w'.currentSkeletonState = skeletonSymbol c u.skeletonState := by
      rw [hcur, nextSkeletonState, hv, if_neg hne]
    refine ⟨?_, ?_, ?_, ?_, ?_, ?_, ?_, ?_, ?_⟩
    · rw [hid, hskel]; exact readAt_zero _
    all_goals intro hr; rw [hcur', hr]; rfl
  · intro heq
    constructor
    · rw [hskel]
      funext j
      rw [Subsingleton.elim j 0, hv, heq]
    · rw [hcur, nextSkeletonState, hv, if_pos heq]

/-- Witness for C4: the first TRACKED frame of subject 0 after program start. -/
theorem updateUserState_calibration_mapping_witness :
    ∃ w', updateUserState sampleCodes World.init
        { id := 0, isNew := false, isVisible := true, isLost := false,
          skeletonState := nite.SkeletonState.SKELETON_TRACKED } = Except.ok w' ∧
      readAt w'.g_skeletonStates 0 = Except.ok nite.SkeletonState.SKELETON_TRACKED ∧
      w'.currentSkeletonState = sampleCodes.SKELETON_TRACKING := by
  obtain ⟨w', h, hne, -⟩ := updateUserState_calibration_mapping sampleCodes World.init
    { id := 0, isNew := false, isVisible := true, isLost := false,
      skeletonState := nite.SkeletonState.SKELETON_TRACKED }
    nite.SkeletonState.SKELETON_NONE rfl
  have := hne (by decide)
  exact ⟨w', h, this.1, this.2.2.2.1 rfl⟩

/-- Witness for C2 (as amended): a first visible frame of subject 0 sets USER_IS_VISIBLE
and publishes it. -/
theorem updateUserState_lifecycle_priority_witness :
    ∃ w', updateUserState sampleCodes World.init
        { id := 0, isNew := false, isVisible := true, isLost := false,
          skeletonState := nite.SkeletonState.SKELETON_NONE } = Except.ok w' ∧
      w'.currentUserState = sampleCodes.USER_IS_VISIBLE ∧
      lifecycleOf (sentSince World.init w') = [sampleCodes.USER_IS_VISIBLE] := by
  obtain ⟨w', h, hcur, hsent⟩ := updateUserState_lifecycle_priority sampleCodes World.init
    { id := 0, isNew := false, isVisible := true, isLost := false,
      skeletonState := nite.SkeletonState.SKELETON_NONE } false rfl
  have hcur' : w'.currentUserState = sampleCodes.USER_IS_VISIBLE := by
    rw [hcur]; rfl
  refine ⟨w', h, hcur', ?_⟩
  rw [hsent, hcur']
  rfl

/-- With an identifier outside `0 .. MAX_USERS-1` the call indexes an array at that
identifier. -/
theorem updateUserState_error_of_out_of_range (c : EventCodes) (w : World) (u : UserData)
    (hr : ¬ (0 ≤ u.id ∧ u.id < (MAX_USERS : Int))) :
    updateUserState c w u = Except.error (Fault.outOfBounds u.id) := by
  unfold updateUserState
  cases h1 : updateLifecycle c w u with
  | error e =>
    have : e = Fault.outOfBounds u.id := by
      unfold updateLifecycle at h1
      rw [readAt_error _ _ hr] at h1
      cases hN : u.isNew <;> cases hV : u.isVisible <;> cases hL : u.isLost <;>
        simp [hN, hV, hL, error_bind, ok_bind, pure_eq_ok] at h1 <;>
        exact h1.symm
    rw [this]; rfl
  | ok w1 =>
    simp only [ok_bind, writeAt_error _ _ _ hr, error_bind]

/-- A call that completes was made for subject 0. -/
theorem id_eq_zero_of_updateUserState_ok {c : EventCodes} {w w' : World} {u : UserData}
    (h : updateUserState c w u = Except.ok w') : u.id = 0 := by
  by_contra hne
  have hr : ¬ (0 ≤ u.id ∧ u.id < (MAX_USERS : Int)) := by
    rintro ⟨h1, h2⟩
    have h3 : u.id < 1 := h2
    exact hne (by omega)
  rw [updateUserState_error_of_out_of_range c w u hr] at h
  cases h

/-- C8 (as amended): `updateUserState` indexes `g_visibleUsers` and `g_skeletonStates`
with the subject identifier unchecked.  The call completes with every array access in
bounds exactly when `0 ≤ id < MAX_USERS`; for any other identifier it indexes an array out
of bounds at `id` (and no fatal error is reported in front of the access). -/
theorem updateUserState_in_bounds_iff (c : EventCodes) (w : World) (u : UserData) :
    ((∃ w', updateUserState c w u = Except.ok w') ↔
      (0 ≤ u.id ∧ u.id < (MAX_USERS : Int))) ∧
    (¬ (0 ≤ u.id ∧ u.id < (MAX_USERS : Int)) →
      updateUserState c w u = Except.error (Fault.outOfBounds u.id)) := by
  refine ⟨⟨?_, ?_⟩, updateUserState_error_of_out_of_range c w u⟩
  · rintro ⟨w', hw'⟩
    by_contra hr
    rw [updateUserState_error_of_out_of_range c w u hr] at hw'
    cases hw'
  · intro hr
    have hid : u.id = 0 := by have h2 : u.id < 1 := hr.2; have := hr.1; omega
    obtain ⟨w', h, -⟩ := updateUserState_spec c w u hid
    exact ⟨w', h⟩

/-- C8 (the claim as stated fails): for subject identifier 1, one past the end of the
one-element arrays, `updateUserState` indexes `g_visibleUsers` at 1. -/
theorem updateUserState_out_of_bounds :
    updateUserState sampleCodes World.init
      { id := 1, isNew := true, isVisible := true, isLost := false,
        skeletonState := nite.SkeletonState.SKELETON_NONE }
      = Except.error (Fault.outOfBounds 1) := by
  rfl

/-! ## The handler -/

/-- The `switch` of the handler by the class of the symbol it reads. -/
theorem onTrackingEvent_cases (c : EventCodes) (w : World) (p : Var)
    (hp : w.asyncData = some p) :
    (w.read p ∈ c.userSymbols → ∃ s, onTrackingEvent c w = Except.ok (w.forwardUser s)) ∧
    (w.read p ∉ c.userSymbols → w.read p ∈ c.skeletonSymbols →
      ∃ s, onTrackingEvent c w = Except.ok (w.forwardSkeleton s)) ∧
    (w.read p ∉ c.userSymbols → w.read p ∉ c.skeletonSymbols →
      ∃ s, onTrackingEvent c w = Except.ok (w.forward s)) := by
  unfold onTrackingEvent
  rw [hp]
  simp only [pure_eq_ok, EventCodes.userSymbols, EventCodes.skeletonSymbols, List.mem_cons,
    List.mem_singleton, List.not_mem_nil, or_false, not_or]
  generalize w.read p = e
  refine ⟨?_, ?_, ?_⟩
  · intro h
    by_cases h1 : e = c.NEW_USER
    · exact ⟨_, by rw [if_pos h1]⟩
    by_cases h2 : e = c.USER_IS_VISIBLE
    · exact ⟨_, by rw [if_neg h1, if_pos h2]⟩
    by_cases h3 : e = c.USER_IS_OUT_OF_SCENE
    · exact ⟨_, by rw [if_neg h1, if_neg h2, if_pos h3]⟩
    by_cases h4 : e = c.USER_IS_LOST
    · exact ⟨_, by rw [if_neg h1, if_neg h2, if_neg h3, if_pos h4]⟩
    · exfalso
      rcases h with h | h | h | h
      exacts [h1 h, h2 h, h3 h, h4 h]
  · rintro ⟨h1, h2, h3, h4⟩ h
    rw [if_neg h1, if_neg h2, if_neg h3, if_neg h4]
    by_cases h5 : e = c.SKELETON_STOPPED_TRACKING
    · exact ⟨_, by rw [if_pos h5]⟩
    by_cases h6 : e = c.SKELETON_TRACKING
    · exact ⟨_, by rw [if_neg h5, if_pos h6]⟩
    by_cases h7 : e = c.SKELETON_CALIBRATING
    · exact ⟨_, by rw [if_neg h5, if_neg h6, if_pos h7]⟩
    by_cases h8 : e = c.SKELETON_CALIBRATION_FAILED
    · exact ⟨_, by rw [if_neg h5, if_neg h6, if_neg h7, if_pos h8]⟩
    · exfalso
      rcases h with h | h | h | h
      exacts [h5 h, h6 h, h7 h, h8 h]
  · rintro ⟨h1, h2, h3, h4⟩ ⟨h5, h6, h7, h8⟩
    rw [if_neg h1, if_neg h2, if_neg h3, if_neg h4, if_neg h5, if_neg h6, if_neg h7,
      if_neg h8]
    split_ifs <;> exact ⟨_, rfl⟩

/-- A calibration symbol is no lifecycle symbol: both are labels of the one `switch`. -/
theorem EventCodes.Valid.skeleton_not_user {c : EventCodes} (hc : c.Valid) {e : Int}
    (he : e ∈ c.skeletonSymbols) : e ∉ c.userSymbols := by
  have hnd : (c.userSymbols ++ (c.skeletonSymbols ++
      [c.SWIPE_LEFT, c.SWIPE_RIGHT, c.SWIPE_UP, c.SWIPE_DOWN, c.WAVE])).Nodup := hc.1
  have hd := (List.nodup_append.1 hnd).2.2
  intro hu
  exact hd hu (List.mem_append_left _ he)

/-- What one run of `onTrackingEvent` changes: the two `last…Dispatched` variables (each
either kept or set to the matching current state) and the emitted strings. -/
theorem onTrackingEvent_spec (c : EventCodes) (hc : c.Valid) (w : World) (p : Var)
    (hp : w.asyncData = some p) :
    ∃ w', onTrackingEvent c w = Except.ok w' ∧
      w'.g_visibleUsers = w.g_visibleUsers ∧
      w'.g_skeletonStates = w.g_skeletonStates ∧
      w'.currentUserState = w.currentUserState ∧
      w'.currentSkeletonState = w.currentSkeletonState ∧
      w'.gestureType = w.gestureType ∧
      w'.asyncData = w.asyncData ∧
      w'.asyncPending = w.asyncPending ∧
      w'.keepWorkerRunning = w.keepWorkerRunning ∧
      w'.skeleton = w.skeleton ∧
      w'.sent = w.sent ∧
      (w'.lastUserEventDispatched = w.lastUserEventDispatched ∨
        w'.lastUserEventDispatched = w.currentUserState) ∧
      (w'.lastSkeletalEventDispatched = w.lastSkeletalEventDispatched ∨
        w'.lastSkeletalEventDispatched = w.currentSkeletonState) ∧
      (w.read p ∈ c.userSymbols → w'.lastUserEventDispatched = w.currentUserState) ∧
      (w.read p ∈ c.skeletonSymbols →
        w'.lastSkeletalEventDispatched = w.currentSkeletonState) := by
  obtain ⟨hU, hS, hO⟩ := onTrackingEvent_cases c w p hp
  by_cases hu : w.read p ∈ c.userSymbols
  · obtain ⟨s, hs⟩ := hU hu
    refine ⟨_, hs, rfl, rfl, rfl, rfl, rfl, rfl, rfl, rfl, rfl, rfl, Or.inr rfl, Or.inl rfl,
      fun _ => rfl, fun h => absurd hu (hc.skeleton_not_user h)⟩
  · by_cases hk : w.read p ∈ c.skeletonSymbols
    · obtain ⟨s, hs⟩ := hS hu hk
      refine ⟨_, hs, rfl, rfl, rfl, rfl, rfl, rfl, rfl, rfl, rfl, rfl, Or.inl rfl, Or.inr rfl,
        fun h => absurd h hu, fun _ => rfl⟩
    · obtain ⟨s, hs⟩ := hO hu hk
      refine ⟨_, hs, rfl, rfl, rfl, rfl, rfl, rfl, rfl, rfl, rfl, rfl, Or.inl rfl, Or.inl rfl,
        fun h => absurd h hu, fun h => absurd h hk⟩

/-- One turn of the foreground loop: the pending flag is cleared and, when a notification
was pending, the handler ran once on the slot as it is now. -/
theorem deliver_spec (c : EventCodes) (hc : c.Valid) (w : World)
    (hp : w.asyncPending = true → w.asyncData ≠ none) :
    ∃ w', deliver c w = Except.ok w' ∧
      w'.g_visibleUsers = w.g_visibleUsers ∧
      w'.g_skeletonStates = w.g_skeletonStates ∧
      w'.currentUserState = w.currentUserState ∧
      w'.currentSkeletonState = w.currentSkeletonState ∧
      w'.asyncPending = false ∧
      w'.sent = w.sent ∧
      (w'.lastUserEventDispatched = w.lastUserEventDispatched ∨
        w'.lastUserEventDispatched = w.currentUserState) ∧
      (w'.lastSkeletalEventDispatched = w.lastSkeletalEventDispatched ∨
        w'.lastSkeletalEventDispatched = w.currentSkeletonState) ∧
      (∀ p, w.asyncPending = true → w.asyncData = some p →
        (w.read p ∈ c.userSymbols → w'.lastUserEventDispatched = w.currentUserState) ∧
        (w.read p ∈ c.skeletonSymbols →
          w'.lastSkeletalEventDispatched = w.currentSkeletonState)) := by
  unfold deliver
  by_cases hpend : w.asyncPending = true
  · rw [if_pos hpend]
    obtain ⟨p, hdata⟩ := Option.ne_none_iff_exists'.1 (hp hpend)
    obtain ⟨w', h, h1, h2, h3, h4, -, -, h7, -, -, h10, h11, h12, h13, h14⟩ :=
      onTrackingEvent_spec c hc { w with asyncPending := false } p hdata
    refine ⟨w', h, h1, h2, h3, h4, h7, h10, h11, h12, ?_⟩
    intro q _ hq
    have : q = p := by rw [hdata] at hq; exact (Option.some.inj hq).symm
    subst this
    exact ⟨h13, h14⟩
  · rw [if_neg hpend]
    have hfalse : w.asyncPending = false := by simpa using hpend
    exact ⟨w, rfl, rfl, rfl, rfl, rfl, hfalse, rfl, Or.inl rfl, Or.inl rfl,
      fun p h => absurd h hpend⟩

/-- A frame of subject 0 followed by a turn of the foreground loop. -/
theorem ackedStep (c : EventCodes) (hc : c.Valid) (w : World) (u : UserData)
    (hid : u.id = 0) (hp : w.asyncPending = true → w.asyncData ≠ none) :
    ∃ w', run c w [Step.frame u, Step.deliver] = Except.ok w' ∧
      w'.g_visibleUsers = (fun _ => u.isVisible) ∧
      w'.g_skeletonStates = (fun _ => u.skeletonState) ∧
      w'.currentUserState = nextUserState c u (w.g_visibleUsers 0) w.currentUserState ∧
      w'.currentSkeletonState =
        nextSkeletonState c u (w.g_skeletonStates 0) w.currentSkeletonState ∧
      w'.asyncPending = false ∧
      w'.sent = w.sent ++
        ((if w'.currentUserState ≠ 0 ∧ w.lastUserEventDispatched ≠ w'.currentUserState
          then [{ var := Var.currentUserState, value := w'.currentUserState }] else []) ++
         (if w'.currentSkeletonState ≠ 0 ∧
              w.lastSkeletalEventDispatched ≠ w'.currentSkeletonState
          then [{ var := Var.currentSkeletonState, value := w'.currentSkeletonState }]
          else [])) ∧
      (w'.lastUserEventDispatched = w.lastUserEventDispatched ∨
        w'.lastUserEventDispatched = w'.currentUserState) ∧
      (w'.lastSkeletalEventDispatched = w.lastSkeletalEventDispatched ∨
        w'.lastSkeletalEventDispatched = w'.currentSkeletonState) ∧
      (w'.currentSkeletonState ≠ 0 ∧
          w.lastSkeletalEventDispatched ≠ w'.currentSkeletonState →
        w'.currentSkeletonState ∈ c.skeletonSymbols →
        w'.lastSkeletalEventDispatched = w'.currentSkeletonState) ∧
      (¬ (w'.currentSkeletonState ≠ 0 ∧
          w.lastSkeletalEventDispatched ≠ w'.currentSkeletonState) →
        w'.currentUserState ≠ 0 ∧ w.lastUserEventDispatched ≠ w'.currentUserState →
        w'.currentUserState ∈ c.userSymbols →
        w'.lastUserEventDispatched = w'.currentUserState) := by
  obtain ⟨w1, hrun, a1, a2, a3, a4, a5, a6, a7, a8, a9, a10, a11, a12, a13⟩ :=
    updateUserState_spec c w u hid
  have hp1 : w1.asyncPending = true → w1.asyncData ≠ none := by
    rw [a11, a12]
    split_ifs <;> simp
    exact hp
  obtain ⟨w2, hd, b1, b2, b3, b4, b5, b6, b7, b8, b9⟩ := deliver_spec c hc w1 hp1
  refine ⟨w2, ?_, ?_, ?_, ?_, ?_, b5, ?_, ?_, ?_, ?_, ?_⟩
  · simp only [run, hrun, ok_bind, hd, pure_eq_ok]
  · rw [b1, a3]
  · rw [b2, a4]
  · rw [b3, a1]
  · rw [b4, a5]
  · rw [b6, a13, b3, b4]
  · rw [b3]; rcases b7 with h | h
    · exact Or.inl (h.trans a2)
    · exact Or.inr h
  · rw [b4]; rcases b8 with h | h
    · exact Or.inl (h.trans a6)
    · exact Or.inr h
  · rw [b4]
    intro hpub hmem
    have hpend : w1.asyncPending = true := by rw [a11, if_pos hpub]
    have hdata : w1.asyncData = some Var.currentSkeletonState := by rw [a12, if_pos hpub]
    exact (b9 _ hpend hdata).2 hmem
  · rw [b3, b4]
    intro hnpub hpub hmem
    have hpend : w1.asyncPending = true := by rw [a11, if_neg hnpub, if_pos hpub]
    have hdata : w1.asyncData = some Var.currentUserState := by
      rw [a12, if_neg hnpub, if_pos hpub]
    exact (b9 _ hpend hdata).1 hmem

/-! ## Runs -/

theorem run_append (c : EventCodes) (w : World) (a b : List Step) :
    run c w (a ++ b) = (run c w a >>= fun w1 => run c w1 b) := by
  induction a generalizing w with
  | nil => rfl
  | cons st rest ih =>
    cases st with
    | frame u =>
      simp only [List.cons_append, run]
      cases updateUserState c w u with
      | error e => rfl
      | ok w1 => exact ih w1
    | iteration f =>
      simp only [List.cons_append, run]
      cases frameWorkerIteration c w f with
      | error e => rfl
      | ok w1 => exact ih w1
    | deliver =>
      simp only [List.cons_append, run]
      cases deliver c w with
      | error e => rfl
      | ok w1 => exact ih w1

theorem ackSchedule_append (a b : List UserData) :
    ackSchedule (a ++ b) = ackSchedule a ++ ackSchedule b := by
  induction a with
  | nil => rfl
  | cons u rest ih =>
    show ackSchedule (u :: (rest ++ b)) = ackSchedule (u :: rest) ++ ackSchedule b
    simp only [ackSchedule, ih, List.cons_append]

theorem run_ackSchedule_cons (c : EventCodes) (w : World) (u : UserData)
    (us : List UserData) :
    run c w (ackSchedule (u :: us)) =
      (run c w [Step.frame u, Step.deliver] >>= fun w1 => run c w1 (ackSchedule us)) := by
  have : ackSchedule (u :: us) = [Step.frame u, Step.deliver] ++ ackSchedule us := rfl
  rw [this, run_append]

theorem calibrationOf_append (a b : List Publish) :
    calibrationOf (a ++ b) = calibrationOf a ++ calibrationOf b := by
  simp [calibrationOf]

theorem lifecycleOf_append (a b : List Publish) :
    lifecycleOf (a ++ b) = lifecycleOf a ++ lifecycleOf b := by
  simp [lifecycleOf]

theorem skeletonSymbol_mem (c : EventCodes) (r : nite.SkeletonState) :
    skeletonSymbol c r ∈ c.skeletonSymbols := by
  cases r <;> simp [skeletonSymbol, EventCodes.skeletonSymbols]

theorem EventCodes.Valid.skeleton_ne_zero {c : EventCodes} (hc : c.Valid) {e : Int}
    (he : e ∈ c.skeletonSymbols) : e ≠ 0 := by
  intro h0
  subst h0
  apply hc.2
  simp only [EventCodes.skeletonSymbols, List.mem_cons, List.mem_singleton,
    List.not_mem_nil, or_false] at he
  simp only [EventCodes.stateSymbols, List.mem_cons, List.mem_singleton, List.not_mem_nil,
    or_false]
  tauto

theorem nextUserState_mem (c : EventCodes) (u : UserData) (b : Bool) (x : Int)
    (hx : x = 0 ∨ x ∈ c.userSymbols) :
    nextUserState c u b x = 0 ∨ nextUserState c u b x ∈ c.userSymbols := by
  unfold nextUserState
  split_ifs
  · right; simp [EventCodes.userSymbols]
  · right; simp [EventCodes.userSymbols]
  · right; simp [EventCodes.userSymbols]
  · right; simp [EventCodes.userSymbols]
  · exact hx

/-! ## Invariants of every run -/

theorem consistent_init (c : EventCodes) : World.init.Consistent c :=
  ⟨fun h => (by cases h), Or.inl rfl, Or.inl rfl⟩

theorem consistent_publish {c : EventCodes} {w : World} (h : w.Consistent c) (v : Var) :
    (publish w v).Consistent c :=
  ⟨fun _ => (by simp [publish]), h.user, h.skeleton⟩

theorem consistent_updateUserState {c : EventCodes} {w w' : World} {u : UserData}
    (h : w.Consistent c) (hrun : updateUserState c w u = Except.ok w') : w'.Consistent c := by
  have hid := id_eq_zero_of_updateUserState_ok hrun
  obtain ⟨w1, hrun1, a1, -, -, -, a5, -, -, -, -, -, a11, a12, -⟩ :=
    updateUserState_spec c w u hid
  rw [hrun] at hrun1
  cases hrun1
  refine ⟨?_, ?_, ?_⟩
  · rw [a11, a12]
    split_ifs <;> simp
    exact h.slot
  · rw [a1]; exact nextUserState_mem c u _ _ h.user
  · rw [a5]
    unfold nextSkeletonState
    split_ifs
    · exact h.skeleton
    · exact Or.inr (skeletonSymbol_mem c _)

theorem consistent_processUser {c : EventCodes} {w w' : World} {uf : UserFrame}
    (h : w.Consistent c) (hrun : processUser c w uf = Except.ok w') : w'.Consistent c := by
  unfold processUser at hrun
  cases h1 : updateUserState c w uf.user with
  | error e => rw [h1] at hrun; cases hrun
  | ok w1 =>
    have hc1 := consistent_updateUserState h h1
    rw [h1, ok_bind] at hrun
    have hc3 : World.Consistent c
        { w1 with skeleton := mapSkeleton w1.skeleton uf.joints,
                  gestureType := uf.gesture } :=
      ⟨hc1.slot, hc1.user, hc1.skeleton⟩
    dsimp only at hrun
    split_ifs at hrun
    · cases hrun; exact ⟨hc1.slot, hc1.user, hc1.skeleton⟩
    · cases hrun; exact consistent_publish hc3 Var.gestureType
    · cases hrun; exact hc3
    · cases hrun; exact hc1

theorem consistent_foldlM_processUser {c : EventCodes} (users : List UserFrame)
    {w w' : World} (h : w.Consistent c)
    (hrun : users.foldlM (processUser c) w = Except.ok w') : w'.Consistent c := by
  induction users generalizing w with
  | nil => cases hrun; exact h
  | cons uf rest ih =>
    rw [List.foldlM_cons] at hrun
    cases h1 : processUser c w uf with
    | error e => rw [h1] at hrun; cases hrun
    | ok w1 =>
      rw [h1, ok_bind] at hrun
      exact ih (consistent_processUser h h1) hrun

theorem consistent_processGesture {c : EventCodes} {w : World} (h : w.Consistent c)
    (g : GestureData) : (processGesture c w g).Consistent c := by
  unfold processGesture
  split_ifs
  · exact consistent_publish (c := c) (w := { w with gestureType := c.WAVE })
      ⟨h.slot, h.user, h.skeleton⟩ Var.gestureType
  · exact h
  · exact h

theorem consistent_foldl_processGesture {c : EventCodes} (gestures : List GestureData)
    {w : World} (h : w.Consistent c) :
    (gestures.foldl (processGesture c) w).Consistent c := by
  induction gestures generalizing w with
  | nil => exact h
  | cons g rest ih => exact ih (consistent_processGesture h g)

theorem consistent_frameWorkerIteration {c : EventCodes} {w w' : World} {f : Frame}
    (h : w.Consistent c) (hrun : frameWorkerIteration c w f = Except.ok w') :
    w'.Consistent c := by
  unfold frameWorkerIteration at hrun
  split_ifs at hrun
  · cases hrun; exact h
  · cases hrun; exact h
  · cases hrun; exact h
  · cases h1 : f.users.foldlM (processUser c) w with
    | error e => rw [h1] at hrun; cases hrun
    | ok w1 =>
      rw [h1, ok_bind] at hrun
      cases hrun
      exact consistent_foldl_processGesture _ (consistent_foldlM_processUser _ h h1)

theorem consistent_deliver {c : EventCodes} {w w' : World} (h : w.Consistent c)
    (hrun : deliver c w = Except.ok w') : w'.Consistent c := by
  unfold deliver at hrun
  split_ifs at hrun with hpend
  · obtain ⟨p, hdata⟩ := Option.ne_none_iff_exists'.1 (h.slot hpend)
    obtain ⟨hU, hS, hO⟩ :=
      onTrackingEvent_cases c { w with asyncPending := false } p hdata
    have key : ∀ s, w' = World.forwardUser { w with asyncPending := false } s ∨
        w' = World.forwardSkeleton { w with asyncPending := false } s ∨
        w' = World.forward { w with asyncPending := false } s → w'.Consistent c := by
      rintro s (hs | hs | hs) <;> subst hs <;>
        exact ⟨fun hp => (by cases hp), h.user, h.skeleton⟩
    by_cases hu : World.read { w with asyncPending := false } p ∈ c.userSymbols
    · obtain ⟨s, hs⟩ := hU hu
      rw [hs] at hrun; cases hrun
      exact key s (Or.inl rfl)
    · by_cases hk : World.read { w with asyncPending := false } p ∈ c.skeletonSymbols
      · obtain ⟨s, hs⟩ := hS hu hk
        rw [hs] at hrun; cases hrun
        exact key s (Or.inr (Or.inl rfl))
      · obtain ⟨s, hs⟩ := hO hu hk
        rw [hs] at hrun; cases hrun
        exact key s (Or.inr (Or.inr rfl))
  · cases hrun; exact h

/-- The two side conditions of the theorems on runs hold at program start and after
every run that completes: a pending notification has a slot to read, and the two state
variables hold `0` or one of their symbols. -/
theorem consistent_run {c : EventCodes} (steps : List Step) {w w' : World}
    (h : w.Consistent c) (hrun : run c w steps = Except.ok w') : w'.Consistent c := by
  induction steps generalizing w with
  | nil => cases hrun; exact h
  | cons st rest ih =>
    cases st with
    | frame u =>
      simp only [run] at hrun
      cases h1 : updateUserState c w u with
      | error e => rw [h1] at hrun; cases hrun
      | ok w1 => rw [h1, ok_bind] at hrun; exact ih (consistent_updateUserState h h1) hrun
    | iteration f =>
      simp only [run] at hrun
      cases h1 : frameWorkerIteration c w f with
      | error e => rw [h1] at hrun; cases hrun
      | ok w1 =>
        rw [h1, ok_bind] at hrun; exact ih (consistent_frameWorkerIteration h h1) hrun
    | deliver =>
      simp only [run] at hrun
      cases h1 : deliver c w with
      | error e => rw [h1] at hrun; cases hrun
      | ok w1 => rw [h1, ok_bind] at hrun; exact ih (consistent_deliver h h1) hrun

/-! ## Calibration symbols under the acknowledging schedule -/

/-- With every notification handled before the next frame and
`lastSkeletalEventDispatched = currentSkeletonState` before a frame, the frame publishes a
calibration symbol exactly when it changes `currentSkeletonState`, and the equality holds
again afterwards. -/
theorem ackedStep_calibration (c : EventCodes) (hc : c.Valid) (w : World) (u : UserData)
    (hid : u.id = 0) (hp : w.asyncPending = true → w.asyncData ≠ none)
    (hE : w.lastSkeletalEventDispatched = w.currentSkeletonState) :
    ∃ w', run c w [Step.frame u, Step.deliver] = Except.ok w' ∧
      (w'.asyncPending = true → w'.asyncData ≠ none) ∧
      w'.lastSkeletalEventDispatched = w'.currentSkeletonState ∧
      w'.g_skeletonStates 0 = u.skeletonState ∧
      w'.currentSkeletonState =
        nextSkeletonState c u (w.g_skeletonStates 0) w.currentSkeletonState ∧
      ∃ l, w'.sent = w.sent ++ l ∧
        calibrationOf l =
          (if w'.currentSkeletonState = w.currentSkeletonState then []
           else [w'.currentSkeletonState]) := by
  obtain ⟨w', hrun, h1, h2, h3, h4, h5, h6, h7, h8, h9, h10⟩ := ackedStep c hc w u hid hp
  have hsym : w'.currentSkeletonState ≠ w.currentSkeletonState →
      w'.currentSkeletonState ∈ c.skeletonSymbols := by
    intro hne
    rw [h4] at hne ⊢
    unfold nextSkeletonState at hne ⊢
    split_ifs at hne ⊢ with hs
    · exact absurd rfl hne
    · exact skeletonSymbol_mem c _
  refine ⟨w', hrun, ?_, ?_, ?_, h4, _, h6, ?_⟩
  · intro hpend; rw [h5] at hpend; cases hpend
  · by_cases hch : w'.currentSkeletonState = w.currentSkeletonState
    · rcases h8 with h | h
      · rw [h, hE, hch]
      · exact h
    · have hmem := hsym hch
      refine h9 ⟨hc.skeleton_ne_zero hmem, ?_⟩ hmem
      rw [hE]; exact fun h => hch h.symm
  · rw [h2]
  · rw [calibrationOf_append]
    by_cases hch : w'.currentSkeletonState = w.currentSkeletonState
    · have hnp : ¬ (w'.currentSkeletonState ≠ 0 ∧
          w.lastSkeletalEventDispatched ≠ w'.currentSkeletonState) := by
        rw [hE, hch]; simp
      rw [if_neg hnp, if_pos hch]
      split_ifs <;> simp [calibrationOf]
    · have hmem := hsym hch
      have hpub : w'.currentSkeletonState ≠ 0 ∧
          w.lastSkeletalEventDispatched ≠ w'.currentSkeletonState :=
        ⟨hc.skeleton_ne_zero hmem, by rw [hE]; exact fun h => hch h.symm⟩
      rw [if_pos hpub, if_neg hch]
      split_ifs <;> simp [calibrationOf]

/-- A run of frames that all report the raw state already stored publishes no calibration
symbol. -/
theorem ackedRun_calibration_stable (c : EventCodes) (hc : c.Valid) (r : nite.SkeletonState)
    (us : List UserData) (hus : ∀ u ∈ us, u.id = 0 ∧ u.skeletonState = r) (w : World)
    (hp : w.asyncPending = true → w.asyncData ≠ none)
    (hE : w.lastSkeletalEventDispatched = w.currentSkeletonState)
    (hr : w.g_skeletonStates 0 = r) :
    ∃ w', run c w (ackSchedule us) = Except.ok w' ∧
      (w'.asyncPending = true → w'.asyncData ≠ none) ∧
      w'.lastSkeletalEventDispatched = w'.currentSkeletonState ∧
      w'.g_skeletonStates 0 = r ∧
      w'.currentSkeletonState = w.currentSkeletonState ∧
      ∃ l, w'.sent = w.sent ++ l ∧ calibrationOf l = [] := by
  induction us generalizing w with
  | nil => exact ⟨w, rfl, hp, hE, hr, rfl, [], by simp, rfl⟩
  | cons u rest ih =>
    have hu := hus u (List.mem_cons_self _ _)
    obtain ⟨w1, hrun1, hp1, hE1, hr1, hcur1, l1, hl1, hcal1⟩ :=
      ackedStep_calibration c hc w u hu.1 hp hE
    have hsame : w1.currentSkeletonState = w.currentSkeletonState := by
      rw [hcur1, nextSkeletonState, if_pos (by rw [hr, hu.2])]
    rw [if_pos hsame] at hcal1
    obtain ⟨w2, hrun2, hp2, hE2, hr2, hcur2, l2, hl2, hcal2⟩ :=
      ih (fun v hv => hus v (List.mem_cons_of_mem _ hv)) w1 hp1 hE1 (by rw [hr1, hu.2])
    refine ⟨w2, ?_, hp2, hE2, hr2, hcur2.trans hsame, l1 ++ l2, ?_, ?_⟩
    · rw [run_ackSchedule_cons, hrun1, ok_bind, hrun2]
    · rw [hl2, hl1, List.append_assoc]
    · rw [calibrationOf_append, hcal1, hcal2]; rfl

/-- A non-empty run of frames that all report the raw state `r`, entered with a different
stored raw state and a different current symbol, publishes the symbol of `r` once. -/
theorem ackedRun_calibration_change (c : EventCodes) (hc : c.Valid) (r : nite.SkeletonState)
    (us : List UserData) (hne : us ≠ []) (hus : ∀ u ∈ us, u.id = 0 ∧ u.skeletonState = r)
    (w : World) (hp : w.asyncPending = true → w.asyncData ≠ none)
    (hE : w.lastSkeletalEventDispatched = w.currentSkeletonState)
    (hr : w.g_skeletonStates 0 ≠ r) (hcur : w.currentSkeletonState ≠ skeletonSymbol c r) :
    ∃ w', run c w (ackSchedule us) = Except.ok w' ∧
      (w'.asyncPending = true → w'.asyncData ≠ none) ∧
      w'.lastSkeletalEventDispatched = w'.currentSkeletonState ∧
      w'.g_skeletonStates 0 = r ∧
      w'.currentSkeletonState = skeletonSymbol c r ∧
      ∃ l, w'.sent = w.sent ++ l ∧ calibrationOf l = [skeletonSymbol c r] := by
  cases us with
  | nil => exact absurd rfl hne
  | cons u rest =>
    have hu := hus u (List.mem_cons_self _ _)
    obtain ⟨w1, hrun1, hp1, hE1, hr1, hcur1, l1, hl1, hcal1⟩ :=
      ackedStep_calibration c hc w u hu.1 hp hE
    have hnew : w1.currentSkeletonState = skeletonSymbol c r := by
      rw [hcur1, nextSkeletonState, if_neg (by rw [hu.2]; exact hr), hu.2]
    rw [if_neg (by rw [hnew]; exact fun h => hcur h.symm), hnew] at hcal1
    obtain ⟨w2, hrun2, hp2, hE2, hr2, hcur2, l2, hl2, hcal2⟩ :=
      ackedRun_calibration_stable c hc r rest
        (fun v hv => hus v (List.mem_cons_of_mem _ hv)) w1 hp1 hE1 (by rw [hr1, hu.2])
    refine ⟨w2, ?_, hp2, hE2, hr2, hcur2.trans hnew, l1 ++ l2, ?_, ?_⟩
    · rw [run_ackSchedule_cons, hrun1, ok_bind, hrun2]
    · rw [hl2, hl1, List.append_assoc]
    · rw [calibrationOf_append, hcal1, hcal2]; rfl

theorem EventCodes.Valid.skeleton_nodup {c : EventCodes} (hc : c.Valid) :
    c.skeletonSymbols.Nodup := by
  have hnd : (c.userSymbols ++ (c.skeletonSymbols ++
      [c.SWIPE_LEFT, c.SWIPE_RIGHT, c.SWIPE_UP, c.SWIPE_DOWN, c.WAVE])).Nodup := hc.1
  exact (List.nodup_append.1 (List.nodup_append.1 hnd).2.1).1

/-- C3: start with stored raw calibration state SKELETON_NONE and no calibration symbol
computed or dispatched; feed `updateUserState` frames of subject 0 whose raw status is
NONE, then CALIBRATING, then TRACKED, then NONE, each status held for one or more frames
(the first NONE segment may even be empty), the foreground loop taking its turn after
every frame.  Then the calibration symbols published are exactly SKELETON_CALIBRATING,
SKELETON_TRACKING, SKELETON_STOPPED_TRACKING, each once, whatever the lifecycle flags of
the frames are; no initial SKELETON_STOPPED_TRACKING is published.  The hypothesis `hp`
holds at program start and after every run (`consistent_run`). -/
theorem calibration_dispatch_sequence (c : EventCodes) (hc : c.Valid) (w : World)
    (hp : w.asyncPending = true → w.asyncData ≠ none)
    (hstored : w.g_skeletonStates 0 = nite.SkeletonState.SKELETON_NONE)
    (hcur : w.currentSkeletonState = 0) (hlast : w.lastSkeletalEventDispatched = 0)
    (none calibrating tracked stopped : List UserData)
    (hne2 : calibrating ≠ []) (hne3 : tracked ≠ []) (hne4 : stopped ≠ [])
    (hs1 : ∀ u ∈ none, u.id = 0 ∧ u.skeletonState = nite.SkeletonState.SKELETON_NONE)
    (hs2 : ∀ u ∈ calibrating,
      u.id = 0 ∧ u.skeletonState = nite.SkeletonState.SKELETON_CALIBRATING)
    (hs3 : ∀ u ∈ tracked, u.id = 0 ∧ u.skeletonState = nite.SkeletonState.SKELETON_TRACKED)
    (hs4 : ∀ u ∈ stopped, u.id = 0 ∧ u.skeletonState = nite.SkeletonState.SKELETON_NONE) :
    ∃ w', run c w (ackSchedule (none ++ calibrating ++ tracked ++ stopped)) = Except.ok w' ∧
      calibrationOf (sentSince w w') =
        [c.SKELETON_CALIBRATING, c.SKELETON_TRACKING, c.SKELETON_STOPPED_TRACKING] := by
  have hnd := hc.skeleton_nodup
  simp only [EventCodes.skeletonSymbols, List.nodup_cons, List.mem_cons, List.mem_singleton,
    List.not_mem_nil, or_false, not_or, not_false_eq_true, List.nodup_nil, and_true] at hnd
  obtain ⟨⟨hST, hSC, -⟩, ⟨hTC, -⟩, -⟩ := hnd
  obtain ⟨w1, hrun1, hp1, hE1, hr1, hcur1, l1, hl1, hcal1⟩ :=
    ackedRun_calibration_stable c hc _ none hs1 w hp (by rw [hlast, hcur]) hstored
  obtain ⟨w2, hrun2, hp2, hE2, hr2, hcur2, l2, hl2, hcal2⟩ :=
    ackedRun_calibration_change c hc _ calibrating hne2 hs2 w1 hp1 hE1
      (by rw [hr1]; decide)
      (by rw [hcur1, hcur]
          exact fun h => hc.skeleton_ne_zero (skeletonSymbol_mem c _) h.symm)
  obtain ⟨w3, hrun3, hp3, hE3, hr3, hcur3, l3, hl3, hcal3⟩ :=
    ackedRun_calibration_change c hc _ tracked hne3 hs3 w2 hp2 hE2
      (by rw [hr2]; decide)
      (by rw [hcur2]; exact fun h => hTC h.symm)
  obtain ⟨w4, hrun4, hp4, hE4, hr4, hcur4, l4, hl4, hcal4⟩ :=
    ackedRun_calibration_change c hc _ stopped hne4 hs4 w3 hp3 hE3
      (by rw [hr3]; decide)
      (by rw [hcur3]; exact fun h => hST h.symm)
  refine ⟨w4, ?_, ?_⟩
  · rw [ackSchedule_append, ackSchedule_append, ackSchedule_append, run_append, run_append,
      run_append, hrun1, ok_bind, hrun2, ok_bind, hrun3, ok_bind, hrun4]
  · have hsent : w4.sent = w.sent ++ (l1 ++ (l2 ++ (l3 ++ l4))) := by
      rw [hl4, hl3, hl2, hl1]; simp only [List.append_assoc]
    rw [sentSince, hsent, List.drop_left, calibrationOf_append, calibrationOf_append,
      calibrationOf_append, hcal1, hcal2, hcal3, hcal4]
    rfl

/-- Witness for C3: from program start, one NONE frame, two CALIBRATING frames, one
TRACKED frame and one NONE frame. -/
theorem calibration_dispatch_sequence_witness :
    ∃ w', run sampleCodes World.init (ackSchedule
        ([{ id := 0, isNew := true, isVisible := true, isLost := false,
            skeletonState := nite.SkeletonState.SKELETON_NONE }] ++
         [{ id := 0, isNew := false, isVisible := true, isLost := false,
            skeletonState := nite.SkeletonState.SKELETON_CALIBRATING },
          { id := 0, isNew := false, isVisible := true, isLost := false,
            skeletonState := nite.SkeletonState.SKELETON_CALIBRATING }] ++
         [{ id := 0, isNew := false, isVisible := true, isLost := false,
            skeletonState := nite.SkeletonState.SKELETON_TRACKED }] ++
         [{ id := 0, isNew := false, isVisible := false, isLost := true,
            skeletonState := nite.SkeletonState.SKELETON_NONE }])) = Except.ok w' ∧
      calibrationOf (sentSince World.init w') = [302, 301, 300] :=
  calibration_dispatch_sequence sampleCodes (by decide) World.init (by decide) rfl rfl rfl
    _ _ _ _ (by decide) (by decide) (by decide) (by decide) (by decide) (by decide)
    (by decide)

/-! ## Lifecycle symbols under the acknowledging schedule -/

/-- Once the stored visibility flag equals the reported one, the same raw signals compute
the same state again. -/
theorem nextUserState_idem (c : EventCodes) (u : UserData) (x : Int) :
    nextUserState c u u.isVisible (nextUserState c u u.isVisible x) =
      nextUserState c u u.isVisible x := by
  unfold nextUserState
  cases u.isNew <;> cases u.isVisible <;> cases u.isLost <;> simp

/-- A frame then a turn of the foreground loop, while no calibration symbol is
outstanding: the handler reads the lifecycle slot, so afterwards `currentUserState` is `0`
or equal to `lastUserEventDispatched`. -/
theorem ackedStep_lifecycle (c : EventCodes) (hc : c.Valid) (w : World) (u : UserData)
    (hid : u.id = 0) (hp : w.asyncPending = true → w.asyncData ≠ none)
    (hstate : w.currentUserState = 0 ∨ w.currentUserState ∈ c.userSymbols)
    (hraw : w.g_skeletonStates 0 = u.skeletonState)
    (hquiet : w.currentSkeletonState = 0 ∨
      w.lastSkeletalEventDispatched = w.currentSkeletonState) :
    ∃ w', run c w [Step.frame u, Step.deliver] = Except.ok w' ∧
      (w'.asyncPending = true → w'.asyncData ≠ none) ∧
      (w'.currentUserState = 0 ∨ w'.currentUserState ∈ c.userSymbols) ∧
      w'.g_skeletonStates 0 = u.skeletonState ∧
      (w'.currentSkeletonState = 0 ∨
        w'.lastSkeletalEventDispatched = w'.currentSkeletonState) ∧
      w'.g_visibleUsers 0 = u.isVisible ∧
      w'.currentUserState = nextUserState c u (w.g_visibleUsers 0) w.currentUserState ∧
      (w'.currentUserState = 0 ∨ w'.lastUserEventDispatched = w'.currentUserState) ∧
      ∃ l, w'.sent = w.sent ++ l ∧ calibrationOf l = [] ∧
        lifecycleOf l =
          (if w'.currentUserState ≠ 0 ∧ w.lastUserEventDispatched ≠ w'.currentUserState
           then [w'.currentUserState] else []) := by
  obtain ⟨w', hrun, h1, h2, h3, h4, h5, h6, h7, h8, h9, h10⟩ := ackedStep c hc w u hid hp
  have hsk : w'.currentSkeletonState = w.currentSkeletonState := by
    rw [h4, nextSkeletonState, if_pos hraw]
  have hnp : ¬ (w'.currentSkeletonState ≠ 0 ∧
      w.lastSkeletalEventDispatched ≠ w'.currentSkeletonState) := by
    rw [hsk]
    rcases hquiet with h | h
    · simp [h]
    · simp [h]
  have hmem : w'.currentUserState = 0 ∨ w'.currentUserState ∈ c.userSymbols := by
    rw [h3]; exact nextUserState_mem c u _ _ hstate
  refine ⟨w', hrun, ?_, hmem, ?_, ?_, ?_, h3, ?_, _, h6, ?_, ?_⟩
  · intro hpend; rw [h5] at hpend; cases hpend
  · rw [h2]
  · rw [hsk]
    rcases hquiet with h | h
    · exact Or.inl h
    · right
      rcases h8 with h' | h'
      · rw [h', h]
      · rw [h', hsk]
  · rw [h1]
  · by_cases hz : w'.currentUserState = 0
    · exact Or.inl hz
    · right
      by_cases hl : w.lastUserEventDispatched = w'.currentUserState
      · rcases h7 with h | h
        · rw [h, hl]
        · exact h
      · exact h10 hnp ⟨hz, hl⟩ (hmem.resolve_left hz)
  · rw [calibrationOf_append, if_neg hnp]
    split_ifs <;> simp [calibrationOf]
  · rw [lifecycleOf_append, if_neg hnp]
    split_ifs <;> simp [lifecycleOf]

/-- Repeating a frame whose signals no longer change the (delivered or empty) lifecycle
state publishes nothing. -/
theorem ackedRun_lifecycle_stable (c : EventCodes) (hc : c.Valid) (u : UserData)
    (hid : u.id = 0) (n : Nat) (w : World)
    (hp : w.asyncPending = true → w.asyncData ≠ none)
    (hstate : w.currentUserState = 0 ∨ w.currentUserState ∈ c.userSymbols)
    (hraw : w.g_skeletonStates 0 = u.skeletonState)
    (hquiet : w.currentSkeletonState = 0 ∨
      w.lastSkeletalEventDispatched = w.currentSkeletonState)
    (hvis : w.g_visibleUsers 0 = u.isVisible)
    (hfix : nextUserState c u u.isVisible w.currentUserState = w.currentUserState)
    (hdone : w.currentUserState = 0 ∨ w.lastUserEventDispatched = w.currentUserState) :
    ∃ w', run c w (ackSchedule (List.replicate n u)) = Except.ok w' ∧
      ∃ l, w'.sent = w.sent ++ l ∧ calibrationOf l = [] ∧ lifecycleOf l = [] := by
  induction n generalizing w with
  | zero => exact ⟨w, rfl, [], by simp, rfl, rfl⟩
  | succ n ih =>
    obtain ⟨w1, hrun1, hp1, hst1, hraw1, hq1, hvis1, hcur1, hdone1, l1, hl1, hcal1, hlc1⟩ :=
      ackedStep_lifecycle c hc w u hid hp hstate hraw hquiet
    have hsame : w1.currentUserState = w.currentUserState := by
      rw [hcur1, hvis, hfix]
    have hnone : lifecycleOf l1 = [] := by
      rw [hlc1, hsame]
      rcases hdone with h | h
      · simp [h]
      · simp [h]
    obtain ⟨w2, hrun2, l2, hl2, hcal2, hlc2⟩ :=
      ih w1 hp1 hst1 hraw1 hq1 hvis1 (by rw [hsame, hfix]) hdone1
    refine ⟨w2, ?_, l1 ++ l2, ?_, ?_, ?_⟩
    · rw [List.replicate_succ, run_ackSchedule_cons, hrun1, ok_bind, hrun2]
    · rw [hl2, hl1, List.append_assoc]
    · rw [calibrationOf_append, hcal1, hcal2]; rfl
    · rw [lifecycleOf_append, hnone, hlc2]; rfl

/-- C1 (as amended): let N consecutive frames present the same raw signals of subject 0
(`isNew`, `isVisible`, `isLost` and the raw calibration state) to `updateUserState`, let
the foreground loop take its turn after every frame, and let no calibration symbol be
outstanding (the frames' raw calibration state is the stored one, and
`currentSkeletonState` is `0` or already delivered).  Then no calibration symbol is
published in these frames and every lifecycle symbol is published at most once over the N
frames.  The hypotheses `hp` and `hstate` hold at program start and after every run
(`consistent_run`). -/
theorem lifecycle_dispatch_once_when_delivered (c : EventCodes) (hc : c.Valid) (w : World)
    (u : UserData) (n : Nat) (v : Int)
    (hid : 0 ≤ u.id ∧ u.id < (MAX_USERS : Int))
    (hp : w.asyncPending = true → w.asyncData ≠ none)
    (hstate : w.currentUserState = 0 ∨ w.currentUserState ∈ c.userSymbols)
    (hraw : w.g_skeletonStates 0 = u.skeletonState)
    (hquiet : w.currentSkeletonState = 0 ∨
      w.lastSkeletalEventDispatched = w.currentSkeletonState) :
    ∃ w', run c w (ackSchedule (List.replicate n u)) = Except.ok w' ∧
      calibrationOf (sentSince w w') = [] ∧
      (lifecycleOf (sentSince w w')).count v ≤ 1 := by
  have hid0 : u.id = 0 := by have h2 : u.id < 1 := hid.2; have := hid.1; omega
  match n with
  | 0 =>
    refine ⟨w, rfl, ?_, ?_⟩ <;> simp [sentSince, calibrationOf, lifecycleOf]
  | 1 =>
    obtain ⟨w1, hrun1, -, -, -, -, -, -, -, l1, hl1, hcal1, hlc1⟩ :=
      ackedStep_lifecycle c hc w u hid0 hp hstate hraw hquiet
    refine ⟨w1, hrun1, ?_, ?_⟩
    · rw [sentSince, hl1, List.drop_left, hcal1]
    · rw [sentSince, hl1, List.drop_left, hlc1]
      split_ifs
      · rw [List.count_singleton]; split_ifs <;> simp
      · simp
  | n + 2 =>
    obtain ⟨w1, hrun1, hp1, hst1, hraw1, hq1, hvis1, hcur1, hdone1, l1, hl1, hcal1, hlc1⟩ :=
      ackedStep_lifecycle c hc w u hid0 hp hstate hraw hquiet
    obtain ⟨w2, hrun2, hp2, hst2, hraw2, hq2, hvis2, hcur2, hdone2, l2, hl2, hcal2, hlc2⟩ :=
      ackedStep_lifecycle c hc w1 u hid0 hp1 hst1 hraw1 hq1
    rw [hvis1] at hcur2
    obtain ⟨w3, hrun3, l3, hl3, hcal3, hlc3⟩ :=
      ackedRun_lifecycle_stable c hc u hid0 n w2 hp2 hst2 hraw2 hq2 hvis2
        (by rw [hcur2, nextUserState_idem]) hdone2
    have hsent : w3.sent = w.sent ++ (l1 ++ (l2 ++ l3)) := by
      rw [hl3, hl2, hl1]; simp only [List.append_assoc]
    refine ⟨w3, ?_, ?_, ?_⟩
    · rw [List.replicate_succ, List.replicate_succ, run_ackSchedule_cons, hrun1, ok_bind,
        run_ackSchedule_cons, hrun2, ok_bind, hrun3]
    · rw [sentSince, hsent, List.drop_left, calibrationOf_append, calibrationOf_append,
        hcal1, hcal2, hcal3]
      rfl
    · rw [sentSince, hsent, List.drop_left, lifecycleOf_append, lifecycleOf_append, hlc1,
        hlc2, hlc3, List.append_nil]
      by_cases hpub1 : w1.currentUserState ≠ 0 ∧
          w.lastUserEventDispatched ≠ w1.currentUserState
      · have hlast1 : w1.lastUserEventDispatched = w1.currentUserState :=
          hdone1.resolve_left hpub1.1
        rw [if_pos hpub1]
        by_cases hpub2 : w2.currentUserState ≠ 0 ∧
            w1.lastUserEventDispatched ≠ w2.currentUserState
        · rw [if_pos hpub2]
          have hne : w1.currentUserState ≠ w2.currentUserState := by
            rw [← hlast1]; exact hpub2.2
          simp only [List.singleton_append, List.count_cons, List.count_nil]
          by_cases h1 : w1.currentUserState = v
          · have h2 : ¬ w2.currentUserState = v := fun h => hne (h1.trans h.symm)
            simp [h1, h2]
          · simp [h1]
            split_ifs <;> simp
        · rw [if_neg hpub2, List.append_nil, List.count_singleton]
          split_ifs <;> simp
      · rw [if_neg hpub1, List.nil_append]
        split_ifs
        · rw [List.count_singleton]; split_ifs <;> simp
        · simp

/-! ## Rounding -/

theorem roundHalfEven_intCast (n : ℤ) : roundHalfEven (n : ℚ) = n := by
  simp [roundHalfEven]

theorem floor_le_roundHalfEven (x : ℚ) : ⌊x⌋ ≤ roundHalfEven x := by
  unfold roundHalfEven
  simp only
  split_ifs <;> omega

theorem roundHalfEven_le_floor_add_one (x : ℚ) : roundHalfEven x ≤ ⌊x⌋ + 1 := by
  unfold roundHalfEven
  simp only
  split_ifs <;> omega

theorem roundHalfEven_mono {x y : ℚ} (h : x ≤ y) : roundHalfEven x ≤ roundHalfEven y := by
  have hf : ⌊x⌋ ≤ ⌊y⌋ := Int.floor_mono h
  rcases hf.lt_or_eq with hlt | heq
  · calc roundHalfEven x ≤ ⌊x⌋ + 1 := roundHalfEven_le_floor_add_one x
      _ ≤ ⌊y⌋ := hlt
      _ ≤ roundHalfEven y := floor_le_roundHalfEven y
  · have hr : x - ⌊x⌋ ≤ y - ⌊y⌋ := by rw [heq]; linarith
    unfold roundHalfEven
    simp only
    rw [heq] at hr ⊢
    split_ifs <;> first | omega | (exfalso; linarith)

theorem roundTo_zero (p : Nat) : roundTo p 0 = 0 := by
  simp [roundTo]

/-- For positive `x` the scaled significand lies in `[2^(p-1), 2^p)`. -/
theorem scaled_bounds (p : Nat) (hp : 1 ≤ p) {x : ℚ} (hx : 0 < x) :
    ((2 ^ (p - 1) : ℕ) : ℚ) ≤ x / 2 ^ (Int.log 2 x - ((p : Int) - 1)) ∧
    x / 2 ^ (Int.log 2 x - ((p : Int) - 1)) < ((2 ^ p : ℕ) : ℚ) := by
  have h2 : (0 : ℚ) < 2 := by norm_num
  have hpos : (0 : ℚ) < 2 ^ (Int.log 2 x - ((p : Int) - 1)) := zpow_pos h2 _
  have hlo : (2 : ℚ) ^ Int.log 2 x ≤ x := by
    have := Int.zpow_log_le_self (b := 2) (by norm_num) hx
    simpa using this
  have hhi : x < (2 : ℚ) ^ (Int.log 2 x + 1) := by
    have := Int.lt_zpow_succ_log_self (b := 2) (by norm_num) x
    simpa using this
  constructor
  · rw [le_div_iff₀ hpos]
    have : ((2 ^ (p - 1) : ℕ) : ℚ) * 2 ^ (Int.log 2 x - ((p : Int) - 1)) = 2 ^ Int.log 2 x := by
      push_cast
      rw [← zpow_natCast, ← zpow_add₀ (by norm_num : (2 : ℚ) ≠ 0)]
      congr 1
      have : ((p - 1 : ℕ) : ℤ) = (p : ℤ) - 1 := by omega
      rw [this]; ring
    rw [this]; exact hlo
  · rw [div_lt_iff₀ hpos]
    have : ((2 ^ p : ℕ) : ℚ) * 2 ^ (Int.log 2 x - ((p : Int) - 1)) = 2 ^ (Int.log 2 x + 1) := by
      push_cast
      rw [← zpow_natCast, ← zpow_add₀ (by norm_num : (2 : ℚ) ≠ 0)]
      congr 1
      ring
    rw [this]; exact hhi

theorem roundTo_of_pos (p : Nat) {x : ℚ} (hx : 0 < x) :
    roundTo p x =
      roundHalfEven (x / 2 ^ (Int.log 2 x - ((p : Int) - 1))) *
        2 ^ (Int.log 2 x - ((p : Int) - 1)) := by
  unfold roundTo
  rw [if_neg hx.ne', abs_of_pos hx]

theorem two_pow_mul_ulp (p : Nat) (hp : 1 ≤ p) (e : ℤ) :
    (((2 ^ (p - 1) : ℕ) : ℤ) : ℚ) * 2 ^ (e - ((p : Int) - 1)) = 2 ^ e := by
  push_cast
  rw [← zpow_natCast, ← zpow_add₀ (by norm_num : (2 : ℚ) ≠ 0)]
  congr 1
  have : ((p - 1 : ℕ) : ℤ) = (p : ℤ) - 1 := by omega
  rw [this]; ring

theorem two_pow_mul_ulp_succ (p : Nat) (e : ℤ) :
    (((2 ^ p : ℕ) : ℤ) : ℚ) * 2 ^ (e - ((p : Int) - 1)) = 2 ^ (e + 1) := by
  push_cast
  rw [← zpow_natCast, ← zpow_add₀ (by norm_num : (2 : ℚ) ≠ 0)]
  congr 1
  ring

/-- Rounding a positive number stays inside its binade, end points included. -/
theorem roundTo_bounds (p : Nat) (hp : 1 ≤ p) {x : ℚ} (hx : 0 < x) :
    (2 : ℚ) ^ Int.log 2 x ≤ roundTo p x ∧ roundTo p x ≤ 2 ^ (Int.log 2 x + 1) := by
  obtain ⟨hlo, hhi⟩ := scaled_bounds p hp hx
  have hpos : (0 : ℚ) < 2 ^ (Int.log 2 x - ((p : Int) - 1)) := zpow_pos (by norm_num) _
  rw [roundTo_of_pos p hx]
  constructor
  · have h1 : ((2 ^ (p - 1) : ℕ) : ℤ) ≤
        roundHalfEven (x / 2 ^ (Int.log 2 x - ((p : Int) - 1))) := by
      have := roundHalfEven_mono hlo
      rw [show ((2 ^ (p - 1) : ℕ) : ℚ) = (((2 ^ (p - 1) : ℕ) : ℤ) : ℚ) by push_cast; rfl,
        roundHalfEven_intCast] at this
      exact this
    rw [← two_pow_mul_ulp p hp]
    exact mul_le_mul_of_nonneg_right (by exact_mod_cast h1) hpos.le
  · have h1 : roundHalfEven (x / 2 ^ (Int.log 2 x - ((p : Int) - 1))) ≤
        ((2 ^ p : ℕ) : ℤ) := by
      have := roundHalfEven_mono hhi.le
      rw [show ((2 ^ p : ℕ) : ℚ) = (((2 ^ p : ℕ) : ℤ) : ℚ) by push_cast; rfl,
        roundHalfEven_intCast] at this
      exact this
    rw [← two_pow_mul_ulp_succ p]
    exact mul_le_mul_of_nonneg_right (by exact_mod_cast h1) hpos.le

theorem roundTo_pos (p : Nat) (hp : 1 ≤ p) {x : ℚ} (hx : 0 < x) : 0 < roundTo p x :=
  lt_of_lt_of_le (zpow_pos (by norm_num) _) (roundTo_bounds p hp hx).1

theorem roundTo_nonneg (p : Nat) (hp : 1 ≤ p) {x : ℚ} (hx : 0 ≤ x) : 0 ≤ roundTo p x := by
  rcases hx.lt_or_eq with h | h
  · exact (roundTo_pos p hp h).le
  · rw [← h, roundTo_zero]

/-- Rounding is monotone on the non-negative numbers. -/
theorem roundTo_mono (p : Nat) (hp : 1 ≤ p) {x y : ℚ} (hx : 0 ≤ x) (hxy : x ≤ y) :
    roundTo p x ≤ roundTo p y := by
  rcases hx.lt_or_eq with hx0 | hx0
  · have hy0 : 0 < y := lt_of_lt_of_le hx0 hxy
    have hlog : Int.log 2 x ≤ Int.log 2 y := Int.log_mono_right hx0 hxy
    rcases hlog.lt_or_eq with hlt | heq
    · calc roundTo p x ≤ 2 ^ (Int.log 2 x + 1) := (roundTo_bounds p hp hx0).2
        _ ≤ 2 ^ Int.log 2 y := zpow_le_zpow_right₀ (by norm_num) (by omega)
        _ ≤ roundTo p y := (roundTo_bounds p hp hy0).1
    · rw [roundTo_of_pos p hx0, roundTo_of_pos p hy0, heq]
      have hpos : (0 : ℚ) < 2 ^ (Int.log 2 y - ((p : Int) - 1)) := zpow_pos (by norm_num) _
      apply mul_le_mul_of_nonneg_right _ hpos.le
      have := roundHalfEven_mono (div_le_div_of_nonneg_right hxy hpos.le)
      exact_mod_cast this
  · rw [← hx0, roundTo_zero]
    exact roundTo_nonneg p hp (hx0 ▸ hxy)

/-- A number with at most `p` significant bits is its own rounding. -/
theorem roundTo_exact (p : Nat) (n : ℕ) (k : ℤ) (hn : n < 2 ^ p) :
    roundTo p ((n : ℚ) * 2 ^ k) = (n : ℚ) * 2 ^ k := by
  rcases Nat.eq_zero_or_pos n with h0 | hpos
  · subst h0; simp [roundTo_zero]
  have h2k : (0 : ℚ) < 2 ^ k := zpow_pos (by norm_num) _
  have hx : (0 : ℚ) < (n : ℚ) * 2 ^ k := mul_pos (by exact_mod_cast hpos) h2k
  rw [roundTo_of_pos p hx]
  set e := Int.log 2 ((n : ℚ) * 2 ^ k) with he
  have hlo : (2 : ℚ) ^ e ≤ (n : ℚ) * 2 ^ k := by
    have := Int.zpow_log_le_self (b := 2) (by norm_num) hx
    simpa using this
  have hlt : (n : ℚ) * 2 ^ k < 2 ^ ((p : ℤ) + k) := by
    rw [zpow_add₀ (by norm_num : (2 : ℚ) ≠ 0), zpow_natCast]
    exact mul_lt_mul_of_pos_right (by exact_mod_cast hn) h2k
  have hek : e < (p : ℤ) + k := by
    have := lt_of_le_of_lt hlo hlt
    exact (zpow_lt_zpow_iff_right₀ (by norm_num : (1 : ℚ) < 2)).1 this
  obtain ⟨d, hd⟩ : ∃ d : ℕ, (d : ℤ) = k - (e - ((p : ℤ) - 1)) :=
    ⟨(k - (e - ((p : ℤ) - 1))).toNat, by omega⟩
  have hscaled : (n : ℚ) * 2 ^ k / 2 ^ (e - ((p : ℤ) - 1)) = ((n * 2 ^ d : ℕ) : ℤ) := by
    rw [mul_div_assoc, ← zpow_sub₀ (by norm_num : (2 : ℚ) ≠ 0), ← hd]
    push_cast
    rw [zpow_natCast]
  rw [hscaled, roundHalfEven_intCast]
  push_cast
  rw [mul_assoc, ← zpow_natCast, ← zpow_add₀ (by norm_num : (2 : ℚ) ≠ 0), hd]
  congr 2
  ring

theorem roundTo_natCast (p : Nat) (n : ℕ) (hn : n < 2 ^ p) :
    roundTo p (n : ℚ) = n := by
  have := roundTo_exact p n 0 hn
  simpa using this

theorem roundTo_two_zpow (p : Nat) (hp : 1 ≤ p) (k : ℤ) : roundTo p (2 ^ k) = 2 ^ k := by
  have := roundTo_exact p 1 k (Nat.one_lt_two_pow (by omega))
  simpa using this

/-- Rounding twice to the same precision changes nothing (non-negative numbers). -/
theorem roundTo_idem (p : Nat) (hp : 1 ≤ p) {x : ℚ} (hx : 0 ≤ x) :
    roundTo p (roundTo p x) = roundTo p x := by
  rcases hx.lt_or_eq with hx0 | hx0
  · obtain ⟨hlo, hhi⟩ := scaled_bounds p hp hx0
    have hm : roundHalfEven (x / 2 ^ (Int.log 2 x - ((p : Int) - 1))) ≤
        ((2 ^ p : ℕ) : ℤ) := by
      have := roundHalfEven_mono hhi.le
      rw [show ((2 ^ p : ℕ) : ℚ) = (((2 ^ p : ℕ) : ℤ) : ℚ) by push_cast; rfl,
        roundHalfEven_intCast] at this
      exact this
    have hm0 : (0 : ℤ) ≤ roundHalfEven (x / 2 ^ (Int.log 2 x - ((p : Int) - 1))) := by
      have h0 : roundHalfEven 0 = 0 := by
        have := roundHalfEven_intCast 0
        simpa using this
      have := roundHalfEven_mono (le_trans (Nat.cast_nonneg _) hlo)
      rw [h0] at this
      exact this
    rw [roundTo_of_pos p hx0]
    obtain ⟨m, hmeq⟩ := Int.eq_ofNat_of_zero_le hm0
    rw [hmeq] at hm ⊢
    have hm' : m ≤ 2 ^ p := by exact_mod_cast hm
    rcases hm'.lt_or_eq with hlt | heq
    · exact roundTo_exact p m _ hlt
    · rw [heq]
      have : (((2 ^ p : ℕ) : ℤ) : ℚ) * 2 ^ (Int.log 2 x - ((p : Int) - 1)) =
          2 ^ (Int.log 2 x + 1) := two_pow_mul_ulp_succ p _
      rw [this]
      exact roundTo_two_zpow p hp _
  · rw [← hx0, roundTo_zero, roundTo_zero]

theorem log_two_eq {x : ℚ} {e : ℤ} (hx : 0 < x) (h1 : (2 : ℚ) ^ e ≤ x)
    (h2 : x < (2 : ℚ) ^ (e + 1)) : Int.log 2 x = e := by
  apply le_antisymm
  · have := (Int.lt_zpow_iff_log_lt (b := 2) (by norm_num) hx).1 (by simpa using h2)
    omega
  · exact (Int.zpow_le_iff_le_log (b := 2) (by norm_num) hx).1 (by simpa using h1)

/-- Evaluating `roundTo` once the binade of `x` is known. -/
theorem roundTo_eval (p : Nat) {x : ℚ} (e : ℤ) (hx : 0 < x) (h1 : (2 : ℚ) ^ e ≤ x)
    (h2 : x < (2 : ℚ) ^ (e + 1)) :
    roundTo p x = roundHalfEven (x / 2 ^ (e - ((p : Int) - 1))) * 2 ^ (e - ((p : Int) - 1)) := by
  rw [roundTo_of_pos p hx, log_two_eq hx h1 h2]

theorem sqrtD_zero : sqrtD 0 = 0 := by
  simp [sqrtD]

theorem sqrtD_of_pos {x : ℚ} (hx : 0 < x) :
    sqrtD x = roundSqrt (x / (2 ^ (Int.log 2 x / 2 - 52) * 2 ^ (Int.log 2 x / 2 - 52))) *
      2 ^ (Int.log 2 x / 2 - 52) := by
  unfold sqrtD
  rw [if_neg (not_le.2 hx)]

theorem sqrt_le_roundSqrt (y : ℚ) : Nat.sqrt ⌊y⌋₊ ≤ roundSqrt y := by
  unfold roundSqrt
  simp only
  split_ifs <;> omega

theorem roundSqrt_le (y : ℚ) : roundSqrt y ≤ Nat.sqrt ⌊y⌋₊ + 1 := by
  unfold roundSqrt
  simp only
  split_ifs <;> omega

/-- The argument of `roundSqrt` inside `sqrtD` lies in `[2^104, 2^106)`. -/
theorem sqrtD_scaled_bounds {x : ℚ} (hx : 0 < x) :
    (2 : ℚ) ^ (104 : ℕ) ≤ x / (2 ^ (Int.log 2 x / 2 - 52) * 2 ^ (Int.log 2 x / 2 - 52)) ∧
    x / (2 ^ (Int.log 2 x / 2 - 52) * 2 ^ (Int.log 2 x / 2 - 52)) < (2 : ℚ) ^ (106 : ℕ) := by
  have h2 : (2 : ℚ) ≠ 0 := by norm_num
  set e := Int.log 2 x with he
  have hlo : (2 : ℚ) ^ e ≤ x := by
    have := Int.zpow_log_le_self (b := 2) (by norm_num) hx
    simpa using this
  have hhi : x < (2 : ℚ) ^ (e + 1) := by
    have := Int.lt_zpow_succ_log_self (b := 2) (by norm_num) x
    simpa using this
  have hpos : (0 : ℚ) < 2 ^ (e / 2 - 52) * 2 ^ (e / 2 - 52) :=
    mul_pos (zpow_pos (by norm_num) _) (zpow_pos (by norm_num) _)
  constructor
  · rw [le_div_iff₀ hpos, ← zpow_natCast, ← zpow_add₀ h2, ← zpow_add₀ h2]
    refine le_trans (zpow_le_zpow_right₀ (by norm_num) ?_) hlo
    push_cast
    omega
  · rw [div_lt_iff₀ hpos, ← zpow_natCast, ← zpow_add₀ h2, ← zpow_add₀ h2]
    refine lt_of_lt_of_le hhi (zpow_le_zpow_right₀ (by norm_num) ?_)
    push_cast
    omega

theorem sqrtD_pos {x : ℚ} (hx : 0 < x) : 0 < sqrtD x := by
  rw [sqrtD_of_pos hx]
  obtain ⟨hlo, -⟩ := sqrtD_scaled_bounds hx
  set y := x / (2 ^ (Int.log 2 x / 2 - 52) * 2 ^ (Int.log 2 x / 2 - 52)) with hy
  have hy1 : (1 : ℚ) ≤ y := le_trans (one_le_pow₀ (by norm_num)) hlo
  have hfl : 0 < ⌊y⌋₊ := Nat.floor_pos.2 hy1
  have hs : 0 < Nat.sqrt ⌊y⌋₊ := Nat.sqrt_pos.2 hfl
  have hr : 0 < roundSqrt y := lt_of_lt_of_le hs (sqrt_le_roundSqrt y)
  exact mul_pos (by exact_mod_cast hr) (zpow_pos (by norm_num) _)

theorem sqrtD_nonneg (x : ℚ) : 0 ≤ sqrtD x := by
  rcases le_or_lt x 0 with h | h
  · unfold sqrtD; rw [if_pos h]
  · exact (sqrtD_pos h).le

/-- The double square root of a positive `x` is at most `2 ^ (⌊log₂ x / 2⌋ + 1)`. -/
theorem sqrtD_le {x : ℚ} (hx : 0 < x) : sqrtD x ≤ 2 ^ (Int.log 2 x / 2 + 1) := by
  rw [sqrtD_of_pos hx]
  obtain ⟨-, hhi⟩ := sqrtD_scaled_bounds hx
  set y := x / (2 ^ (Int.log 2 x / 2 - 52) * 2 ^ (Int.log 2 x / 2 - 52)) with hy
  have hy0 : 0 ≤ y := le_of_lt (lt_of_lt_of_le (by positivity) (sqrtD_scaled_bounds hx).1)
  have hfl : ⌊y⌋₊ < 2 ^ 106 :=
    (Nat.floor_lt hy0).2 (by rw [Nat.cast_pow, Nat.cast_ofNat]; exact hhi)
  have hs : Nat.sqrt ⌊y⌋₊ < 2 ^ 53 := by
    rw [Nat.sqrt_lt']
    calc ⌊y⌋₊ < 2 ^ 106 := hfl
      _ = (2 ^ 53) ^ 2 := by norm_num
  have hr : roundSqrt y ≤ 2 ^ 53 := le_trans (roundSqrt_le y) hs
  have hpos : (0 : ℚ) < 2 ^ (Int.log 2 x / 2 - 52) := zpow_pos (by norm_num) _
  calc (roundSqrt y : ℚ) * 2 ^ (Int.log 2 x / 2 - 52)
      ≤ ((2 ^ 53 : ℕ) : ℚ) * 2 ^ (Int.log 2 x / 2 - 52) :=
        mul_le_mul_of_nonneg_right (by exact_mod_cast hr) hpos.le
    _ = 2 ^ (Int.log 2 x / 2 + 1) := by
        rw [show ((2 ^ 53 : ℕ) : ℚ) = (2 : ℚ) ^ (53 : ℤ) by norm_num,
          ← zpow_add₀ (by norm_num : (2 : ℚ) ≠ 0)]
        congr 1
        ring

/-- Evaluating `sqrtD` once the binade of `x` and the integer square root are known. -/
theorem sqrtD_eval {x : ℚ} (e : ℤ) (n : ℕ) (hx : 0 < x) (h1 : (2 : ℚ) ^ e ≤ x)
    (h2 : x < (2 : ℚ) ^ (e + 1))
    (hn : n * n ≤ ⌊x / (2 ^ (e / 2 - 52) * 2 ^ (e / 2 - 52))⌋₊ ∧
      ⌊x / (2 ^ (e / 2 - 52) * 2 ^ (e / 2 - 52))⌋₊ < (n + 1) * (n + 1)) :
    sqrtD x =
      ((if x / (2 ^ (e / 2 - 52) * 2 ^ (e / 2 - 52)) < ((n : ℚ) + 1 / 2) ^ 2 then n
        else if ((n : ℚ) + 1 / 2) ^ 2 < x / (2 ^ (e / 2 - 52) * 2 ^ (e / 2 - 52)) then n + 1
        else if n % 2 = 0 then n
        else n + 1 : ℕ) : ℚ) * 2 ^ (e / 2 - 52) := by
  rw [sqrtD_of_pos hx, log_two_eq hx h1 h2]
  unfold roundSqrt
  rw [← Nat.eq_sqrt.2 hn]


/-! ## Distances -/

theorem truncInt_of_nonneg {x : ℚ} (h0 : 0 ≤ x) (h1 : x < 2 ^ 31) :
    truncInt x = some ⌊x⌋ := by
  unfold truncInt
  rw [if_pos ⟨by linarith [show (0 : ℚ) < 2 ^ 31 by norm_num], h1⟩, if_pos h0]

theorem powD_zero : powD 0 = 0 := by
  simp [powD, roundTo_zero]

theorem powD_nonneg (d : Int) : 0 ≤ powD d :=
  roundTo_nonneg 53 (by norm_num) (sq_nonneg _)

theorem powD_pos {d : Int} (hd : d ≠ 0) : 0 < powD d :=
  roundTo_pos 53 (by norm_num) (by positivity)

theorem powD_le {d : Int} (hd : |d| ≤ 2 ^ 25) : powD d ≤ 2 ^ (50 : ℤ) := by
  have h1 : ((d : ℚ)) ^ 2 ≤ 2 ^ (50 : ℤ) := by
    have habs : |(d : ℚ)| ≤ 2 ^ 25 := by exact_mod_cast hd
    have := pow_le_pow_left₀ (abs_nonneg (d : ℚ)) habs 2
    rw [sq_abs] at this
    calc (d : ℚ) ^ 2 ≤ (2 ^ 25) ^ 2 := this
      _ = 2 ^ (50 : ℤ) := by norm_num
  have := roundTo_mono 53 (by norm_num) (sq_nonneg (d : ℚ)) h1
  rwa [roundTo_two_zpow 53 (by norm_num)] at this

theorem addD_nonneg {a b : ℚ} (ha : 0 ≤ a) (hb : 0 ≤ b) : 0 ≤ addD a b :=
  roundTo_nonneg 53 (by norm_num) (add_nonneg ha hb)

theorem addD_pos {a b : ℚ} (ha : 0 ≤ a) (hb : 0 ≤ b) (h : 0 < a ∨ 0 < b) :
    0 < addD a b := by
  apply roundTo_pos 53 (by norm_num)
  rcases h with h | h
  · linarith
  · linarith

theorem addD_le {a b : ℚ} (k : ℤ) (ha : 0 ≤ a) (hb : 0 ≤ b) (ha' : a ≤ 2 ^ k)
    (hb' : b ≤ 2 ^ k) : addD a b ≤ 2 ^ (k + 1) := by
  have h1 : a + b ≤ 2 ^ (k + 1) := by
    rw [zpow_add_one₀ (by norm_num : (2 : ℚ) ≠ 0)]
    linarith
  have := roundTo_mono 53 (by norm_num) (add_nonneg ha hb) h1
  rwa [roundTo_two_zpow 53 (by norm_num)] at this

/-- The distance of a joint to a joint at the same position is zero. -/
theorem distance_eq_zero {a b : Joint} (h : a.samePosition b) : distance a b = 0 := by
  obtain ⟨hx, hy, hz⟩ := h
  simp [distance, hx, hy, hz, powD_zero, addD, toFloat, roundTo_zero, sqrtD_zero]

/-- Only the position of the second joint enters the distance. -/
theorem distance_congr_right (a : Joint) {b b' : Joint} (h : b.samePosition b') :
    distance a b = distance a b' := by
  obtain ⟨hx, hy, hz⟩ := h
  simp [distance, hx, hy, hz]

/-- Joints at different positions have a positive distance. -/
theorem distance_pos {a b : Joint} (h : ¬ a.samePosition b) : 0 < distance a b := by
  apply roundTo_pos 24 (by norm_num)
  apply sqrtD_pos
  have hne : a.xPos - b.xPos ≠ 0 ∨ a.yPos - b.yPos ≠ 0 ∨ a.zPos - b.zPos ≠ 0 := by
    by_contra hcon
    push_neg at hcon
    exact h ⟨by omega, by omega, by omega⟩
  rcases hne with h1 | h1 | h1
  · exact addD_pos (addD_nonneg (powD_nonneg _) (powD_nonneg _)) (powD_nonneg _)
      (Or.inl (addD_pos (powD_nonneg _) (powD_nonneg _) (Or.inl (powD_pos h1))))
  · exact addD_pos (addD_nonneg (powD_nonneg _) (powD_nonneg _)) (powD_nonneg _)
      (Or.inl (addD_pos (powD_nonneg _) (powD_nonneg _) (Or.inr (powD_pos h1))))
  · exact addD_pos (addD_nonneg (powD_nonneg _) (powD_nonneg _)) (powD_nonneg _)
      (Or.inr (powD_pos h1))

/-- A distance is a `float`: converting it again changes nothing. -/
theorem toFloat_distance (a b : Joint) : roundTo 24 (distance a b) = distance a b :=
  roundTo_idem 24 (by norm_num) (sqrtD_nonneg _)

/-- Within the coordinate range a distance stays below `2^27`. -/
theorem distance_le {a b : Joint} (ha : a.inRange) (hb : b.inRange) :
    distance a b ≤ 2 ^ (27 : ℤ) := by
  obtain ⟨ax, ay, az⟩ := ha
  obtain ⟨bx, by', bz⟩ := hb
  have hx : |a.xPos - b.xPos| ≤ 2 ^ 25 := by
    have := abs_sub a.xPos b.xPos; omega
  have hy : |a.yPos - b.yPos| ≤ 2 ^ 25 := by
    have := abs_sub a.yPos b.yPos; omega
  have hz : |a.zPos - b.zPos| ≤ 2 ^ 25 := by
    have := abs_sub a.zPos b.zPos; omega
  set s := addD (addD (powD (a.xPos - b.xPos)) (powD (a.yPos - b.yPos)))
    (powD (a.zPos - b.zPos)) with hs
  have h1 : addD (powD (a.xPos - b.xPos)) (powD (a.yPos - b.yPos)) ≤ 2 ^ (51 : ℤ) :=
    addD_le 50 (powD_nonneg _) (powD_nonneg _) (powD_le hx) (powD_le hy)
  have h2 : s ≤ 2 ^ (52 : ℤ) :=
    addD_le 51 (addD_nonneg (powD_nonneg _) (powD_nonneg _)) (powD_nonneg _) h1
      (le_trans (powD_le hz) (zpow_le_zpow_right₀ (by norm_num) (by norm_num)))
  have hs0 : 0 ≤ s := addD_nonneg (addD_nonneg (powD_nonneg _) (powD_nonneg _)) (powD_nonneg _)
  have hsq : sqrtD s ≤ 2 ^ (27 : ℤ) := by
    rcases hs0.lt_or_eq with hpos | hzero
    · have hlog : Int.log 2 s ≤ 52 := by
        have : s < (2 : ℚ) ^ (53 : ℤ) :=
          lt_of_le_of_lt h2 (zpow_lt_zpow_right₀ (by norm_num) (by norm_num))
        have := (Int.lt_zpow_iff_log_lt (b := 2) (by norm_num) hpos).1 (by simpa using this)
        omega
      exact le_trans (sqrtD_le hpos) (zpow_le_zpow_right₀ (by norm_num) (by omega))
    · rw [← hzero, sqrtD_zero]; positivity
  have := roundTo_mono 24 (by norm_num) (sqrtD_nonneg s) hsq
  rw [roundTo_two_zpow 24 (by norm_num)] at this
  exact this

/-! ## The limb-extension value -/

/-- With the elbow at the shoulder and the hand elsewhere, the value is computed from the
hand-to-elbow distance alone and lies between 0 and 100. -/
theorem percentExtended_elbow_at_shoulder {hand elbow shoulder : Joint}
    (hh : hand.inRange) (he : elbow.inRange) (hes : elbow.samePosition shoulder)
    (hne : ¬ hand.samePosition elbow) :
    ∃ v : Int, percentExtended hand elbow shoulder = some v ∧ 0 ≤ v ∧ v ≤ 100 := by
  have hd0 : distance elbow shoulder = 0 := distance_eq_zero hes
  have hd1 : distance hand shoulder = distance hand elbow :=
    (distance_congr_right hand hes).symm
  have hpos : 0 < distance hand elbow := distance_pos hne
  have hlt : distance hand elbow < 2 ^ 31 :=
    lt_of_le_of_lt (distance_le hh he) (by norm_num)
  set d := distance hand elbow with hd
  have hfl0 : (0 : ℚ) ≤ (⌊d⌋ : ℚ) := by exact_mod_cast Int.floor_nonneg.2 hpos.le
  have hfl1 : (⌊d⌋ : ℚ) ≤ d := Int.floor_le d
  have ht0 : 0 ≤ toFloat (⌊d⌋ : ℚ) := roundTo_nonneg 24 (by norm_num) hfl0
  have ht1 : toFloat (⌊d⌋ : ℚ) ≤ d := by
    have := roundTo_mono 24 (by norm_num) hfl0 hfl1
    rwa [hd, toFloat_distance, ← hd] at this
  have hden : addF 0 d = d := by
    unfold addF; rw [zero_add, hd, toFloat_distance]
  have hq0 : 0 ≤ toFloat (⌊d⌋ : ℚ) / d := div_nonneg ht0 hpos.le
  have hq1 : toFloat (⌊d⌋ : ℚ) / d ≤ 1 := (div_le_one hpos).2 ht1
  set q := roundTo 24 (toFloat (⌊d⌋ : ℚ) / d) with hq
  have hq0' : 0 ≤ q := roundTo_nonneg 24 (by norm_num) hq0
  have hq1' : q ≤ 1 := by
    have := roundTo_mono 24 (by norm_num) hq0 hq1
    have h1 : roundTo 24 (1 : ℚ) = 1 := by
      have := roundTo_two_zpow 24 (by norm_num) 0
      simpa using this
    rwa [h1] at this
  have hm0 : 0 ≤ mulF q 100 := roundTo_nonneg 24 (by norm_num) (by positivity)
  have hm1 : mulF q 100 ≤ 100 := by
    have := roundTo_mono 24 (by norm_num) (show (0 : ℚ) ≤ q * 100 by positivity)
      (show q * 100 ≤ ((100 : ℕ) : ℚ) by push_cast; linarith)
    rwa [roundTo_natCast 24 100 (by norm_num)] at this
    
  refine ⟨⌊mulF q 100⌋, ?_, Int.floor_nonneg.2 hm0, ?_⟩
  · unfold percentExtended
    simp only [hd0, hd1, ← hd, hden]
    rw [truncInt_of_nonneg hpos.le hlt]
    simp only [Option.bind_eq_bind, Option.some_bind, divF, if_neg hpos.ne']
    rw [← hq]
    exact truncInt_of_nonneg hm0 (lt_of_le_of_lt hm1 (by norm_num))
  · have : (⌊mulF q 100⌋ : ℚ) ≤ ((100 : ℤ) : ℚ) := le_trans (Int.floor_le _) (by push_cast; exact hm1)
    exact_mod_cast this

/-- With hand, elbow and shoulder all at one position the denominator is zero and the
division is performed all the same: no value is defined. -/
theorem percentExtended_all_coincide {hand elbow shoulder : Joint}
    (hes : elbow.samePosition shoulder) (hhe : hand.samePosition elbow) :
    percentExtended hand elbow shoulder = none := by
  have hd0 : distance elbow shoulder = 0 := distance_eq_zero hes
  have hd2 : distance hand elbow = 0 := distance_eq_zero hhe
  have hd1 : distance hand shoulder = 0 := by
    rw [← distance_congr_right hand hes]; exact hd2
  unfold percentExtended
  simp only [hd0, hd1, hd2]
  have h0 : truncInt 0 = some 0 := by
    rw [truncInt_of_nonneg le_rfl (by norm_num)]; simp
  have ha : addF 0 0 = 0 := by simp [addF, roundTo_zero]
  simp [h0, ha, divF]

/-! ## Concrete arithmetic -/

theorem roundTo_eq_self_of_nat (p n : ℕ) (hn : n < 2 ^ p) (x : ℚ) (hx : x = (n : ℚ)) :
    roundTo p x = x := by
  subst hx; exact roundTo_natCast p n hn

theorem roundTo_eq_self_of_scaled (p n : ℕ) (k : ℤ) (hn : n < 2 ^ p) (x : ℚ)
    (hx : x = (n : ℚ) * 2 ^ k) : roundTo p x = x := by
  subst hx; exact roundTo_exact p n k hn

theorem sqrtD_20000 : sqrtD 20000 = 621977702395095 / 4398046511104 := by
  rw [sqrtD_eval 14 4975821619160759 (by norm_num) (by norm_num) (by norm_num)
    (by norm_num)]
  norm_num

theorem sqrtD_80000 : sqrtD 80000 = 621977702395095 / 2199023255552 := by
  rw [sqrtD_eval 16 4975821619160759 (by norm_num) (by norm_num) (by norm_num)
    (by norm_num)]
  norm_num

theorem sqrtD_90000 : sqrtD 90000 = 300 := by
  rw [sqrtD_eval 16 5277655813324800 (by norm_num) (by norm_num) (by norm_num)
    (by norm_num)]
  norm_num

theorem toFloat_sqrtD_20000 :
    toFloat (621977702395095 / 4398046511104) = 4634095 / 32768 := by
  unfold toFloat
  rw [roundTo_eval 24 7 (by norm_num) (by norm_num) (by norm_num)]
  norm_num [roundHalfEven]

theorem toFloat_sqrtD_80000 :
    toFloat (621977702395095 / 2199023255552) = 4634095 / 16384 := by
  unfold toFloat
  rw [roundTo_eval 24 8 (by norm_num) (by norm_num) (by norm_num)]
  norm_num [roundHalfEven]

/-- The squared coordinate differences and their sums are small integers: exact. -/
theorem sumOfSquares_exact (dx dy dz : Int) (n1 n2 n3 : ℕ)
    (h1 : ((dx : ℚ)) ^ 2 = n1) (h2 : ((dy : ℚ)) ^ 2 = n2) (h3 : ((dz : ℚ)) ^ 2 = n3)
    (hb : n1 + n2 + n3 < 2 ^ 53) :
    addD (addD (powD dx) (powD dy)) (powD dz) = ((n1 + n2 + n3 : ℕ) : ℚ) := by
  unfold addD powD
  rw [h1, h2, h3, roundTo_natCast 53 n1 (by omega), roundTo_natCast 53 n2 (by omega),
    roundTo_natCast 53 n3 (by omega)]
  rw [roundTo_eq_self_of_nat 53 (n1 + n2) (by omega) ((n1 : ℚ) + n2) (by push_cast; rfl)]
  rw [roundTo_eq_self_of_nat 53 (n1 + n2 + n3) (by omega) ((n1 : ℚ) + n2 + n3)
    (by push_cast; rfl)]
  push_cast; rfl

theorem distance_hand_elbow_tracked :
    distance trackedSkeleton.leftHand trackedSkeleton.leftElbow = 4634095 / 32768 := by
  unfold distance
  rw [sumOfSquares_exact _ _ _ 10000 10000 0 (by norm_num [trackedSkeleton, jointAt])
    (by norm_num [trackedSkeleton, jointAt]) (by norm_num [trackedSkeleton, jointAt])
    (by norm_num)]
  norm_num
  rw [sqrtD_20000, toFloat_sqrtD_20000]

theorem distance_elbow_shoulder_tracked :
    distance trackedSkeleton.leftElbow trackedSkeleton.leftShoulder = 4634095 / 32768 := by
  unfold distance
  rw [sumOfSquares_exact _ _ _ 10000 10000 0 (by norm_num [trackedSkeleton, jointAt])
    (by norm_num [trackedSkeleton, jointAt]) (by norm_num [trackedSkeleton, jointAt])
    (by norm_num)]
  norm_num
  rw [sqrtD_20000, toFloat_sqrtD_20000]

theorem distance_hand_shoulder_tracked :
    distance trackedSkeleton.leftHand trackedSkeleton.leftShoulder = 4634095 / 16384 := by
  unfold distance
  rw [sumOfSquares_exact _ _ _ 40000 40000 0 (by norm_num [trackedSkeleton, jointAt])
    (by norm_num [trackedSkeleton, jointAt]) (by norm_num [trackedSkeleton, jointAt])
    (by norm_num)]
  norm_num
  rw [sqrtD_80000, toFloat_sqrtD_80000]

theorem addF_tracked : addF (4634095 / 32768) (4634095 / 32768) = 4634095 / 16384 := by
  unfold addF
  rw [roundTo_eq_self_of_scaled 24 4634095 (-14) (by norm_num) _ (by norm_num)]
  norm_num

theorem percentExtended_tracked_left :
    percentExtended trackedSkeleton.leftHand trackedSkeleton.leftElbow
      trackedSkeleton.leftShoulder = some 99 := by
  unfold percentExtended
  simp only [distance_hand_elbow_tracked, distance_elbow_shoulder_tracked,
    distance_hand_shoulder_tracked, addF_tracked]
  have ht : truncInt (4634095 / 16384) = some 282 := by
    rw [truncInt_of_nonneg (by norm_num) (by norm_num)]
    norm_num
  have hf : toFloat ((282 : ℤ) : ℚ) = 282 := by
    unfold toFloat
    rw [roundTo_eq_self_of_nat 24 282 (by norm_num) _ (by norm_num)]
    norm_num
  have hq : divF 282 (4634095 / 16384) = some (16727229 / 16777216) := by
    unfold divF
    rw [if_neg (by norm_num), roundTo_eval 24 (-1) (by norm_num) (by norm_num) (by norm_num)]
    norm_num [roundHalfEven]
  have hm : mulF (16727229 / 16777216) 100 = 3267037 / 32768 := by
    unfold mulF
    rw [roundTo_eval 24 6 (by norm_num) (by norm_num) (by norm_num)]
    norm_num [roundHalfEven]
  have hr : truncInt (3267037 / 32768) = some 99 := by
    rw [truncInt_of_nonneg (by norm_num) (by norm_num)]
    norm_num
  simp only [ht, Option.bind_eq_bind, Option.some_bind, hf, hq, hm, hr]


theorem percentExtended_elbowAtShoulder_right :
    percentExtended elbowAtShoulderSkeleton.rightHand elbowAtShoulderSkeleton.rightElbow
      elbowAtShoulderSkeleton.rightShoulder = some 100 := by
  have d1 : distance elbowAtShoulderSkeleton.rightHand
      elbowAtShoulderSkeleton.rightElbow = 300 := by
    unfold distance
    rw [sumOfSquares_exact _ _ _ 0 0 90000
      (by norm_num [elbowAtShoulderSkeleton, trackedSkeleton, jointAt])
      (by norm_num [elbowAtShoulderSkeleton, trackedSkeleton, jointAt])
      (by norm_num [elbowAtShoulderSkeleton, trackedSkeleton, jointAt]) (by norm_num)]
    norm_num
    rw [sqrtD_90000]
    unfold toFloat
    rw [roundTo_eq_self_of_nat 24 300 (by norm_num) _ (by norm_num)]
  have d2 : distance elbowAtShoulderSkeleton.rightHand
      elbowAtShoulderSkeleton.rightShoulder = 300 := by
    rw [← distance_congr_right _ (show elbowAtShoulderSkeleton.rightElbow.samePosition
      elbowAtShoulderSkeleton.rightShoulder by decide)]
    exact d1
  have d3 : distance elbowAtShoulderSkeleton.rightElbow
      elbowAtShoulderSkeleton.rightShoulder = 0 :=
    distance_eq_zero (by decide)
  unfold percentExtended
  simp only [d1, d2, d3]
  have ht : truncInt 300 = some 300 := by
    rw [truncInt_of_nonneg (by norm_num) (by norm_num)]
    norm_num
  have hf : toFloat ((300 : ℤ) : ℚ) = 300 := by
    unfold toFloat
    rw [roundTo_eq_self_of_nat 24 300 (by norm_num) _ (by norm_num)]
    norm_num
  have ha : addF 0 300 = 300 := by
    unfold addF
    rw [roundTo_eq_self_of_nat 24 300 (by norm_num) _ (by norm_num)]
    norm_num
  have hq : divF 300 300 = some 1 := by
    unfold divF
    rw [if_neg (by norm_num), roundTo_eq_self_of_nat 24 1 (by norm_num) _ (by norm_num)]
    norm_num
  have hm : mulF 1 100 = 100 := by
    unfold mulF
    rw [roundTo_eq_self_of_nat 24 100 (by norm_num) _ (by norm_num)]
    norm_num
  have hr : truncInt 100 = some 100 := by
    rw [truncInt_of_nonneg (by norm_num) (by norm_num)]
    norm_num
  simp only [ht, Option.bind_eq_bind, Option.some_bind, hf, ha, hq, hm, hr]

/-! ## Joint queries -/

theorem selectJoint_hand (skeleton : Skeleton) (arm : Arm) :
    selectJoint skeleton arm.handName =
      (percentExtended (arm.hand skeleton) (arm.elbow skeleton) (arm.shoulder skeleton)).map
        fun pe => match arm with
          | Arm.left => (skeleton.leftHand, pe, -1)
          | Arm.right => (skeleton.rightHand, -1, pe) := by
  cases arm <;> rfl

/-- The `percentExtended` property of the object returned for a hand whose joint carries
the hand's type is the value computed from the three joints of that arm. -/
theorem mapJointToJSObject_hand (skeleton : Skeleton) (arm : Arm)
    (htype : (arm.hand skeleton).type = arm.handType) :
    (mapJointToJSObject skeleton arm.handName).map JSJoint.percentExtended =
      (percentExtended (arm.hand skeleton) (arm.elbow skeleton) (arm.shoulder skeleton)).map
        some := by
  unfold mapJointToJSObject
  rw [selectJoint_hand]
  cases arm <;>
    cases percentExtended _ _ _ <;>
    simp_all [Arm.hand, Arm.handType]


/-- C5 (the code at the failing input): the left arm of `trackedSkeleton` is stretched
along a straight line (the hand is as far from the elbow as the elbow from the shoulder,
in the same direction), the computed hand-to-shoulder distance equals the computed sum of
the other two distances, the denominator is not zero, and `mapJointToJSObject("left_hand")`
reports `percentExtended` 99, not 100: the hand-to-shoulder distance 282.84… is truncated
to 282 before the division. -/
theorem mapJointToJSObject_stretched_arm_reports_99 :
    (trackedSkeleton.leftHand.xPos - trackedSkeleton.leftElbow.xPos =
        trackedSkeleton.leftElbow.xPos - trackedSkeleton.leftShoulder.xPos ∧
      trackedSkeleton.leftHand.yPos - trackedSkeleton.leftElbow.yPos =
        trackedSkeleton.leftElbow.yPos - trackedSkeleton.leftShoulder.yPos ∧
      trackedSkeleton.leftHand.zPos - trackedSkeleton.leftElbow.zPos =
        trackedSkeleton.leftElbow.zPos - trackedSkeleton.leftShoulder.zPos) ∧
    distance trackedSkeleton.leftHand trackedSkeleton.leftShoulder =
      addF (distance trackedSkeleton.leftElbow trackedSkeleton.leftShoulder)
        (distance trackedSkeleton.leftHand trackedSkeleton.leftElbow) ∧
    addF (distance trackedSkeleton.leftElbow trackedSkeleton.leftShoulder)
        (distance trackedSkeleton.leftHand trackedSkeleton.leftElbow) ≠ 0 ∧
    (mapJointToJSObject trackedSkeleton "left_hand").map JSJoint.percentExtended =
      some (some 99) := by
  refine ⟨by decide, ?_, ?_, ?_⟩
  · rw [distance_hand_shoulder_tracked, distance_elbow_shoulder_tracked,
      distance_hand_elbow_tracked, addF_tracked]
  · rw [distance_elbow_shoulder_tracked, distance_hand_elbow_tracked, addF_tracked]
    norm_num
  · have := mapJointToJSObject_hand trackedSkeleton Arm.left rfl
    rw [show Arm.left.handName = "left_hand" from rfl] at this
    rw [this]
    show (percentExtended trackedSkeleton.leftHand trackedSkeleton.leftElbow
      trackedSkeleton.leftShoulder).map some = some (some 99)
    rw [percentExtended_tracked_left]
    rfl

/-- C6 (as amended): take a skeleton whose hand joint of one arm carries the hand's type,
with hand and elbow coordinates of magnitude at most `2^24`, and whose elbow position
equals the shoulder position.  If the hand is at another position,
`mapJointToJSObject` for that hand divides by the non-zero hand-to-elbow distance and
reports a `percentExtended` between 0 and 100 (the ordinary formula, never the sentinel
`-1`).  If the hand is at the same position too, the denominator is zero, the division is
performed without a guard and no value is defined. -/
theorem mapJointToJSObject_elbow_at_shoulder (skeleton : Skeleton) (arm : Arm)
    (htype : (arm.hand skeleton).type = arm.handType)
    (hh : (arm.hand skeleton).inRange) (he : (arm.elbow skeleton).inRange)
    (hes : (arm.elbow skeleton).samePosition (arm.shoulder skeleton)) :
    (¬ (arm.hand skeleton).samePosition (arm.elbow skeleton) →
      ∃ v : Int, (mapJointToJSObject skeleton arm.handName).map JSJoint.percentExtended =
        some (some v) ∧ 0 ≤ v ∧ v ≤ 100) ∧
    ((arm.hand skeleton).samePosition (arm.elbow skeleton) →
      mapJointToJSObject skeleton arm.handName = none) := by
  constructor
  · intro hne
    obtain ⟨v, hv, h0, h100⟩ := percentExtended_elbow_at_shoulder hh he hes hne
    refine ⟨v, ?_, h0, h100⟩
    rw [mapJointToJSObject_hand skeleton arm htype, hv]
    rfl
  · intro hhe
    unfold mapJointToJSObject
    rw [selectJoint_hand, percentExtended_all_coincide hes hhe]
    rfl

/-- Witness for C6 (as amended): the right arm of `elbowAtShoulderSkeleton`. -/
theorem mapJointToJSObject_elbow_at_shoulder_witness :
    elbowAtShoulderSkeleton.rightElbow.samePosition elbowAtShoulderSkeleton.rightShoulder ∧
    ¬ elbowAtShoulderSkeleton.rightHand.samePosition elbowAtShoulderSkeleton.rightElbow ∧
    ∃ v : Int, (mapJointToJSObject elbowAtShoulderSkeleton "right_hand").map
        JSJoint.percentExtended = some (some v) ∧ 0 ≤ v ∧ v ≤ 100 :=
  ⟨by decide, by decide,
    (mapJointToJSObject_elbow_at_shoulder elbowAtShoulderSkeleton Arm.right rfl (by decide)
      (by decide) (by decide)).1 (by decide)⟩

/-- C6 (the claim as stated fails): with the right elbow at the right shoulder and the
hand 300 mm away, `mapJointToJSObject("right_hand")` reports 100, not the sentinel `-1`;
with the hand at the same position as well, the division by the zero denominator is
performed and no value is defined. -/
theorem mapJointToJSObject_elbow_at_shoulder_not_sentinel :
    elbowAtShoulderSkeleton.rightElbow.samePosition elbowAtShoulderSkeleton.rightShoulder ∧
    (mapJointToJSObject elbowAtShoulderSkeleton "right_hand").map JSJoint.percentExtended =
      some (some 100) ∧
    armCollapsedSkeleton.rightElbow.samePosition armCollapsedSkeleton.rightShoulder ∧
    mapJointToJSObject armCollapsedSkeleton "right_hand" = none := by
  refine ⟨by decide, ?_, by decide, ?_⟩
  · have := mapJointToJSObject_hand elbowAtShoulderSkeleton Arm.right rfl
    rw [show Arm.right.handName = "right_hand" from rfl] at this
    rw [this]
    show (percentExtended elbowAtShoulderSkeleton.rightHand
      elbowAtShoulderSkeleton.rightElbow elbowAtShoulderSkeleton.rightShoulder).map some =
        some (some 100)
    rw [percentExtended_elbowAtShoulder_right]
    rfl
  · have := selectJoint_hand armCollapsedSkeleton Arm.right
    rw [show Arm.right.handName = "right_hand" from rfl] at this
    unfold mapJointToJSObject
    rw [this]
    show Option.map _ (Option.map _ (percentExtended armCollapsedSkeleton.rightHand
      armCollapsedSkeleton.rightElbow armCollapsedSkeleton.rightShoulder)) = none
    rw [percentExtended_all_coincide (by decide) (by decide)]
    rfl

/-- The six names other than the hands and the shoulders select the joint of the same
name. -/
theorem selectJoint_same_name (skeleton : Skeleton) :
    selectJoint skeleton "torso" = some (skeleton.torso, -1, -1) ∧
    selectJoint skeleton "head" = some (skeleton.head, -1, -1) ∧
    selectJoint skeleton "left_elbow" = some (skeleton.leftElbow, -1, -1) ∧
    selectJoint skeleton "left_hip" = some (skeleton.leftHip, -1, -1) ∧
    selectJoint skeleton "right_elbow" = some (skeleton.rightElbow, -1, -1) ∧
    selectJoint skeleton "right_hip" = some (skeleton.rightHip, -1, -1) :=
  ⟨rfl, rfl, rfl, rfl, rfl, rfl⟩

/-- The queries for the two shoulders return the data of the elbows, for every
skeleton. -/
theorem mapJointToJSObject_shoulder_eq_elbow (skeleton : Skeleton) :
    mapJointToJSObject skeleton "left_shoulder" = mapJointToJSObject skeleton "left_elbow" ∧
    mapJointToJSObject skeleton "right_shoulder" =
      mapJointToJSObject skeleton "right_elbow" ∧
    (mapJointToJSObject skeleton "left_elbow").map
        (fun js => (js.x, js.y, js.z, js.xRotation, js.yRotation, js.zRotation, js.active)) =
      some (skeleton.leftElbow.xPos, skeleton.leftElbow.yPos, skeleton.leftElbow.zPos,
        skeleton.leftElbow.xRotation, skeleton.leftElbow.yRotation,
        skeleton.leftElbow.zRotation, skeleton.leftElbow.isActive) ∧
    (mapJointToJSObject skeleton "right_elbow").map
        (fun js => (js.x, js.y, js.z, js.xRotation, js.yRotation, js.zRotation, js.active)) =
      some (skeleton.rightElbow.xPos, skeleton.rightElbow.yPos, skeleton.rightElbow.zPos,
        skeleton.rightElbow.xRotation, skeleton.rightElbow.yRotation,
        skeleton.rightElbow.zRotation, skeleton.rightElbow.isActive) :=
  ⟨rfl, rfl, rfl, rfl⟩

/-- C7 (the code at the failing input): in `trackedSkeleton` the left shoulder is at
`(0,0,2000)` and the left elbow at `(100,100,2000)`, the right shoulder at `(-300,0,2000)`
and the right elbow at `(-350,-250,2000)`; `mapJointToJSObject("left_shoulder")` and
`mapJointToJSObject("right_shoulder")` return the positions of the elbows. -/
theorem mapJointToJSObject_shoulders_of_trackedSkeleton :
    (trackedSkeleton.leftShoulder.xPos, trackedSkeleton.leftShoulder.yPos,
      trackedSkeleton.leftShoulder.zPos) = (0, 0, 2000) ∧
    (mapJointToJSObject trackedSkeleton "left_shoulder").map
      (fun js => (js.x, js.y, js.z)) = some (100, 100, 2000) ∧
    (trackedSkeleton.rightShoulder.xPos, trackedSkeleton.rightShoulder.yPos,
      trackedSkeleton.rightShoulder.zPos) = (-300, 0, 2000) ∧
    (mapJointToJSObject trackedSkeleton "right_shoulder").map
      (fun js => (js.x, js.y, js.z)) = some (-350, -250, 2000) :=
  ⟨rfl, rfl, rfl, rfl⟩

/-! ## initialize -/

/-- The joint set-up of `initialize` types all ten joints and deactivates nine of them;
`rightShoulder.isActive` keeps its previous value. -/
theorem initializeJoints_spec (skeleton : Skeleton) :
    (initializeJoints skeleton).rightShoulder.isActive = skeleton.rightShoulder.isActive ∧
    (initializeJoints skeleton).leftHand.isActive = false ∧
    (initializeJoints skeleton).leftElbow.isActive = false ∧
    (initializeJoints skeleton).leftShoulder.isActive = false ∧
    (initializeJoints skeleton).rightHand.isActive = false ∧
    (initializeJoints skeleton).rightElbow.isActive = false ∧
    (initializeJoints skeleton).torso.isActive = false ∧
    (initializeJoints skeleton).head.isActive = false ∧
    (initializeJoints skeleton).leftHip.isActive = false ∧
    (initializeJoints skeleton).rightHip.isActive = false ∧
    (initializeJoints skeleton).leftHand.type = nite.JointType.JOINT_LEFT_HAND ∧
    (initializeJoints skeleton).leftElbow.type = nite.JointType.JOINT_LEFT_ELBOW ∧
    (initializeJoints skeleton).leftShoulder.type = nite.JointType.JOINT_LEFT_SHOULDER ∧
    (initializeJoints skeleton).rightHand.type = nite.JointType.JOINT_RIGHT_HAND ∧
    (initializeJoints skeleton).rightElbow.type = nite.JointType.JOINT_RIGHT_ELBOW ∧
    (initializeJoints skeleton).rightShoulder.type = nite.JointType.JOINT_RIGHT_SHOULDER ∧
    (initializeJoints skeleton).torso.type = nite.JointType.JOINT_TORSO ∧
    (initializeJoints skeleton).head.type = nite.JointType.JOINT_HEAD ∧
    (initializeJoints skeleton).leftHip.type = nite.JointType.JOINT_LEFT_HIP ∧
    (initializeJoints skeleton).rightHip.type = nite.JointType.JOINT_RIGHT_HIP :=
  ⟨rfl, rfl, rfl, rfl, rfl, rfl, rfl, rfl, rfl, rfl, rfl, rfl, rfl, rfl, rfl, rfl, rfl, rfl,
    rfl, rfl⟩

/-- C10 (the code at the failing input): when `initialize()` succeeds on a state whose
skeleton snapshot is `trackedSkeleton` (all joints active, as an earlier session can leave
it), the right shoulder is still active afterwards, while the other nine joints are
inactive. -/
theorem initializeCall_leaves_rightShoulder_active :
    trackedSkeleton.rightShoulder.isActive = true ∧
    (initializeCall sampleCodes { World.init with skeleton := trackedSkeleton }
      true true true).skeleton.rightShoulder.isActive = true ∧
    (initializeCall sampleCodes { World.init with skeleton := trackedSkeleton }
      true true true).skeleton.leftShoulder.isActive = false ∧
    (initializeCall sampleCodes { World.init with skeleton := trackedSkeleton }
      true true true).skeleton.rightElbow.isActive = false :=
  ⟨rfl, rfl, rfl, rfl⟩


/-! ## The bridge -/

/-- C9 (the code at the failing input): after the lifecycle and calibration symbols of a
tracked user have been delivered, one loop iteration publishes SWIPE_LEFT (401) and the
next one, in which the recogniser returns NO_GESTURE (400), publishes nothing.  The
delivery that follows finds the notification pending, reads 400 through the slot and
forwards "No known event type found", although the most recent publish carried 401 and
400 was never published. -/
theorem deliver_forwards_unpublished_value :
    (do
      let w ← run sampleCodes startedWorld
        [Step.iteration (trackedFrame sampleCodes.NO_GESTURE), Step.deliver,
         Step.iteration (trackedFrame sampleCodes.NO_GESTURE), Step.deliver,
         Step.iteration (trackedFrame sampleCodes.SWIPE_LEFT),
         Step.iteration (trackedFrame sampleCodes.NO_GESTURE)]
      let w' ← deliver sampleCodes w
      pure (w.sent.map Publish.value, w.sent.getLast?, w.asyncPending,
        w.asyncData.map w.read, w'.emitted)) =
    (Except.ok
      ([201, 301, 201, 401], some { var := Var.gestureType, value := 401 }, true, some 400,
        ["DEVICE_INITIALIZED", "SKELETON_TRACKING", "USER_IS_VISIBLE",
         "No known event type found"]) :
      Except Fault (List Int × Option Publish × Bool × Option Int × List String)) := by
  rfl

/-- C1 (the claim as stated fails): two consecutive frames present the same raw signals
(a new, visible user whose skeleton is calibrating).  With the handler run after each
frame, the first delivery reads the calibration symbol published later in the same call,
so NEW_USER (200) is published in both frames; with no handler run in between it is
published in both frames as well. -/
theorem lifecycle_symbol_published_twice :
    (do
      let w ← run sampleCodes World.init
        [Step.frame newCalibratingUser, Step.deliver,
         Step.frame newCalibratingUser, Step.deliver]
      pure (lifecycleOf (sentSince World.init w), w.emitted)) =
      (Except.ok ([200, 200], ["SKELETON_CALIBRATING", "NEW_USER"]) :
        Except Fault (List Int × List String)) ∧
    (do
      let w ← run sampleCodes World.init
        [Step.frame newCalibratingUser, Step.frame newCalibratingUser]
      pure (lifecycleOf (sentSince World.init w))) =
      (Except.ok [200, 200] : Except Fault (List Int)) := by
  constructor <;> rfl

/-- Witness for C1 (as amended): three frames of a new visible user from program
start. -/
theorem lifecycle_dispatch_once_when_delivered_witness :
    ∃ w', run sampleCodes World.init (ackSchedule (List.replicate 3
        { id := 0, isNew := true, isVisible := true, isLost := false,
          skeletonState := nite.SkeletonState.SKELETON_NONE })) = Except.ok w' ∧
      calibrationOf (sentSince World.init w') = [] ∧
      (lifecycleOf (sentSince World.init w')).count 200 ≤ 1 :=
  lifecycle_dispatch_once_when_delivered sampleCodes (by decide) World.init
    { id := 0, isNew := true, isVisible := true, isLost := false,
      skeletonState := nite.SkeletonState.SKELETON_NONE } 3 200
    (by decide) (by decide) (Or.inl rfl) rfl (Or.inl rfl)

end NuiMotion
